import Mathlib

/-!
# xcbackup: a shallow embedding of `main.go`

The program logs in to the DHV-XC web API, fetches the list of the user's
flights and downloads the IGC file of each flight into `<dir>/<date>/<id>.igc`.

Conventions of the embedding.

* Go `string` values are Lean `String`s, Go `int` is the 64 bit signed integer,
  held in an `Int` together with the range predicate `isInt`.
* Functions of the Go standard library that the program calls and whose result
  is decided by arithmetic on the argument (`strconv.Atoi`, `fmt.Sprintf`) are
  written out after the library.  Functions whose result is decided by the
  outside world (the file system, the HTTP client, the JSON codec) are fields
  of an environment `Env`; they receive the history of the actions performed so
  far, so the environment may answer the same call differently over time.
* A procedure of the program is a function from the history of actions to an
  `Outcome`: it returns, or the process ends (`logrus.Fatal`, a run time panic).
* The function `init` (lines 81-93) sets the log level and gives the HTTP client
  its cookie jar; the client and its jar belong to the environment, and a log
  call is recorded whatever the level.
-/

namespace XCBackup

/-! ## Standard library: `strconv.Atoi` and the verb `%d` -/

/-- The two errors of package `strconv`. -/
inductive NumError where
  | ErrSyntax
  | ErrRange
deriving DecidableEq, Repr

/-- Largest `uint64`. -/
def maxUint64 : Nat := 2 ^ 64 - 1

/-- Go `int` on a 64 bit platform. -/
def IntSize : Nat := 64

/-- Range of the Go type `int`. -/
def isInt (v : Int) : Prop := -(2 : Int) ^ 63 ≤ v ∧ v < (2 : Int) ^ 63

instance (v : Int) : Decidable (isInt v) := by unfold isInt; infer_instance

/-- Conversion `int64(x)` with two's complement wrap around. -/
def wrap64 (x : Int) : Int := (x + 2 ^ 63) % 2 ^ 64 - 2 ^ 63

/-- A decimal digit, as tested by `'0' <= c && c <= '9'`. -/
def isDecimal (c : Char) : Bool := decide ('0' ≤ c) && decide (c ≤ '9')

/-- The loop of `strconv.ParseUint(s, 10, 64)` over the remaining characters, `n` being the
value accumulated so far.  A character that is not a decimal digit is a syntax error with
value 0; an overflow ends the loop at once with the value `maxVal` and a range error. -/
def ParseUint_loop : List Char → Nat → Nat × Option NumError
  | [], n => (n, none)
  | c :: cs, n =>
    if isDecimal c then
      let d := c.toNat - ('0').toNat
      -- cutoff is the smallest number such that cutoff*base > maxUint64
      if n ≥ maxUint64 / 10 + 1 then (maxUint64, some NumError.ErrRange)
      else
        let n10 := (n * 10) % 2 ^ 64
        let n1 := (n10 + d) % 2 ^ 64
        if n1 < n10 ∨ n1 > maxUint64 then (maxUint64, some NumError.ErrRange)
        else ParseUint_loop cs n1
    else (0, some NumError.ErrSyntax)

/-- Model of `strconv.ParseUint(s, 10, 64)`. -/
def ParseUint (s : List Char) : Nat × Option NumError :=
  if s = [] then (0, some NumError.ErrSyntax) else ParseUint_loop s 0

/-- Model of `strconv.ParseInt(s, 10, 0)`: an optional sign, then `ParseUint`; a syntax error
gives 0, a value out of the range of `int64` gives the nearest bound and `ErrRange`. -/
def ParseInt (s : List Char) : Int × Option NumError :=
  match s with
  | [] => (0, some NumError.ErrSyntax)
  | c :: cs =>
    let neg := c == '-'
    let body := if c == '+' ∨ c == '-' then cs else c :: cs
    let r := ParseUint body
    if r.2 = some NumError.ErrSyntax then (0, some NumError.ErrSyntax)
    else
      let cutoff : Nat := 2 ^ (IntSize - 1)
      if ¬ neg ∧ r.1 ≥ cutoff then (((cutoff - 1 : Nat) : Int), some NumError.ErrRange)
      else if neg ∧ r.1 > cutoff then (-(cutoff : Int), some NumError.ErrRange)
      else
        let n := wrap64 (r.1 : Int)
        (if neg then wrap64 (-n) else n, none)

/-- Model of `strconv.Atoi`, documented as `ParseInt(s, 10, 0)` converted to `int`:
the value and the error. -/
def Atoi (s : String) : Int × Option NumError := ParseInt s.data

/-- Model of `fmt.Sprintf("%d", v)` for an `int`: a minus sign for a negative number, then
the decimal digits of the magnitude. -/
def Sprintf_d (v : Int) : String :=
  String.mk ((if v < 0 then [('-')] else []) ++ Nat.toDigits 10 v.natAbs)

/-! ## Data model (`main.go` lines 34-76) -/

/-- Login credentials, sent as the JSON object with the keys `uid` and `pwd`. -/
structure jsonLogin where
  User : String
  Pass : String
deriving DecidableEq, Repr

/-- One flight of the list answer: the JSON keys `idflight`, `FlightDate`, `takeofflocation`.
A key that the answer does not have leaves its field the empty string. -/
structure FlightInfo where
  ID : String
  DATE : String
  TakeOff : String
deriving DecidableEq, Repr

/-- The list answer: the JSON keys `data`, `success`, `message`. -/
structure Flights where
  Data : List FlightInfo
  Success : Bool
  Message : String
deriving DecidableEq, Repr

/-- Command line options. -/
structure Options where
  User : String
  Pass : String
  Dir : String
  List : Bool
  ID : Int
deriving DecidableEq, Repr

/-- The arguments of one invocation `saveIgc(id, targetdir, date)`. -/
structure Call where
  id : String
  targetdir : String
  date : String
deriving DecidableEq, Repr

/-- What one iteration of the loop of `main` does. -/
inductive Step where
  /-- The flight is printed with `logrus.Infof` (list mode). -/
  | print (f : FlightInfo)
  /-- The call `saved += saveIgc(..)` made by `main` itself, followed by `break`. -/
  | direct (c : Call)
  /-- The statement `go func(id, date) { saved += saveIgc(id, options.Dir, date) }`. -/
  | spawn (c : Call)
deriving DecidableEq, Repr

/-- The loop of `main` (lines 237-258) over the flights not yet visited. -/
def main_loop (options : Options) : List FlightInfo → List Step
  | [] => []
  | f :: rest =>
    if options.List then
      Step.print f :: main_loop options rest
    else
      let has_id := (Atoi f.ID).1
      if options.ID ≠ 0 ∧ has_id ≠ options.ID then
        [Step.direct ⟨Sprintf_d options.ID, options.Dir, "today"⟩]
      else
        Step.spawn ⟨f.ID, options.Dir, f.DATE⟩ :: main_loop options rest

/-- The invocations of `saveIgc` issued by the loop, in the order of issue. -/
def saveIgcCalls : List Step → List Call
  | [] => []
  | Step.print _ :: r => saveIgcCalls r
  | Step.direct c :: r => c :: saveIgcCalls r
  | Step.spawn c :: r => c :: saveIgcCalls r

/-- The flights printed by the loop, in order. -/
def printed : List Step → List FlightInfo
  | [] => []
  | Step.print f :: r => f :: printed r
  | Step.direct _ :: r => printed r
  | Step.spawn _ :: r => printed r

/-! ## Values, actions and the environment -/

/-- A byte slice. -/
abbrev Bytes := List UInt8

/-- A value of type `interface{}` as `json.Unmarshal` produces it.  A JSON number becomes a
`float64`, kept as its IEEE 754 bit pattern; an object becomes a `map[string]interface{}`, kept
as the list of its entries. -/
inductive Value where
  | null
  | bool (b : Bool)
  | number (bits : Nat)
  | str (s : String)
  | array (elems : List Value)
  | object (entries : List (String × Value))

/-- The type `map[string]interface{}`. -/
abbrev JsonMap := List (String × Value)

/-- An error of package `os`, as far as `os.IsNotExist` tells them apart. -/
inductive OsError where
  | notExist
  | exist
  | permission
  | other (msg : String)
deriving DecidableEq, Repr

/-- Model of `os.IsNotExist(err)`; `none` is the nil error. -/
def IsNotExist : Option OsError → Bool
  | some OsError.notExist => true
  | _ => false

/-- The fields of an `http.Request` that `httpReq` sets.  `body` is `none` for the nil reader. -/
structure Request where
  method : String
  url : String
  body : Option Bytes
  header : List (String × String)
deriving DecidableEq, Repr

/-- Model of `Header.Set`: the value replaces what was stored under the name.  The name is kept
as written in the program. -/
def Header_Set (r : Request) (key value : String) : Request :=
  { r with header := r.header.filter (fun kv => kv.1 ≠ key) ++ [(key, value)] }

/-- Model of `Header.Get`. -/
def Header_Get (r : Request) (key : String) : Option String := r.header.lookup key

/-- What the program uses of an `http.Response`: the bytes `ioutil.ReadAll` delivers, the error
it reports with them, and the cookies. -/
structure Response where
  body : Bytes
  readError : Option String
  cookies : List String
deriving DecidableEq, Repr

/-- Log levels of logrus used by the program. -/
inductive Level where
  | debug
  | info
  | error
  | fatal
deriving DecidableEq, Repr

/-- An operand of a log call. -/
inductive Arg where
  | str (s : String)
  | bytes (b : Bytes)
  | int (n : Int)
  | value (v : Option Value)
  | map (m : JsonMap)
  | err (e : String)
  | oserr (e : Option OsError)
  | cookies (c : List String)

/-- An action of the process on the outside world. -/
inductive Action where
  /-- A logrus call with its format string (`none` for the calls without one) and operands. -/
  | log (level : Level) (format : Option String) (args : List Arg)
  | stat (path : String)
  | mkdir (path : String) (perm : Nat)
  | create (path : String)
  | write (path : String) (data : Bytes)
  | close (path : String)
  /-- The call `client.Do(request)`. -/
  | send (request : Request)

/-- The actions performed so far, oldest first. -/
abbrev History := List Action

/-- The outside world and the library functions that are not written out.  The functions
of the file system and of the HTTP client see the history, so their answers may change. -/
structure Env where
  Stat : History → String → Option OsError
  Mkdir : History → String → Nat → Option OsError
  Create : History → String → Option OsError
  Write : History → String → Bytes → Option OsError
  Close : History → String → Option OsError
  /-- Whether `http.NewRequest(method, url, _)` succeeds. -/
  NewRequestOk : String → String → Bool
  Do : History → Request → Except String Response
  /-- The function `json.Marshal`. -/
  Marshal : Value → Except String Bytes
  /-- The function `json.Unmarshal` into a `map[string]interface{}`. -/
  UnmarshalMap : Bytes → Except String JsonMap
  /-- The function `json.Unmarshal` into a `[]interface{}`. -/
  UnmarshalList : Bytes → Except String (List Value)
  /-- The function `json.Unmarshal` into a `Flights`. -/
  UnmarshalFlights : Bytes → Except String Flights
  /-- The verb `%v` applied to a `float64`. -/
  FormatFloat : Nat → String

/-- How a procedure ends: it returns a value, the process exits (`os.Exit`), or it panics. -/
inductive Outcome (α : Type) where
  | ret (a : α) (h : History)
  | exit (code : Nat) (h : History)
  | panic (msg : String) (h : History)

/-- The history at the end. -/
def Outcome.history {α : Type} : Outcome α → History
  | Outcome.ret _ h => h
  | Outcome.exit _ h => h
  | Outcome.panic _ h => h

/-- A procedure: from the history at its start to its outcome. -/
def Prog (α : Type) : Type := History → Outcome α

/-- Sequencing: the second procedure runs when the first returns. -/
def Prog.bind {α β : Type} (m : Prog α) (f : α → Prog β) : Prog β :=
  fun h =>
    match m h with
    | Outcome.ret a h1 => f a h1
    | Outcome.exit c h1 => Outcome.exit c h1
    | Outcome.panic s h1 => Outcome.panic s h1

instance : Monad Prog where
  pure a := fun h => Outcome.ret a h
  bind := Prog.bind

/-- Perform one action. -/
def act (a : Action) : Prog Unit := fun h => Outcome.ret () (h ++ [a])

/-- A logrus call below the level fatal. -/
def log (level : Level) (format : Option String) (args : List Arg) : Prog Unit :=
  act (Action.log level format args)

/-- Model of `logrus.Fatal` and `logrus.Fatalf`: the line is logged, then `os.Exit(1)`. -/
def Fatal {α : Type} (format : Option String) (args : List Arg) : Prog α :=
  fun h => Outcome.exit 1 (h ++ [Action.log Level.fatal format args])

/-- A run time panic that nothing recovers: the process ends with status 2. -/
def goPanic {α : Type} (msg : String) : Prog α := fun h => Outcome.panic msg h

/-- Model of `os.Stat`, of which the program uses the error only. -/
def os_Stat (env : Env) (path : String) : Prog (Option OsError) :=
  fun h => Outcome.ret (env.Stat h path) (h ++ [Action.stat path])

/-- Model of `os.Mkdir`. -/
def os_Mkdir (env : Env) (path : String) (perm : Nat) : Prog (Option OsError) :=
  fun h => Outcome.ret (env.Mkdir h path perm) (h ++ [Action.mkdir path perm])

/-- Model of `os.Create`: the file, named by its path, or the nil file on an error. -/
def os_Create (env : Env) (path : String) : Prog (Option String) :=
  fun h => Outcome.ret (if env.Create h path = none then some path else none)
    (h ++ [Action.create path])

/-- Model of `(*os.File).Write`, which on the nil file returns `ErrInvalid` and does nothing. -/
def File_Write (env : Env) (f : Option String) (data : Bytes) : Prog (Option OsError) :=
  match f with
  | none => pure (some (OsError.other "invalid argument"))
  | some path => fun h => Outcome.ret (env.Write h path data) (h ++ [Action.write path data])

/-- Model of `(*os.File).Close`, which on the nil file returns `ErrInvalid` and does nothing. -/
def File_Close (env : Env) (f : Option String) : Prog (Option OsError) :=
  match f with
  | none => pure (some (OsError.other "invalid argument"))
  | some path => fun h => Outcome.ret (env.Close h path) (h ++ [Action.close path])

/-- Model of `client.Do`. -/
def client_Do (env : Env) (request : Request) : Prog (Except String Response) :=
  fun h => Outcome.ret (env.Do h request) (h ++ [Action.send request])

/-! ## Standard library: the verb `%v` on a decoded JSON value -/

mutual
/-- Model of `fmt.Sprintf("%v", v)` for a non-nil `interface{}` from `json.Unmarshal`: a string
is printed as it is, a nil element as `<nil>`, a slice as `[a b]`, a map as `map[k:v k:v]`
with the keys in increasing order. -/
def Sprint_v (ff : Nat → String) : Value → String
  | Value.null => "<nil>"
  | Value.bool b => if b then "true" else "false"
  | Value.number x => ff x
  | Value.str s => s
  | Value.array l => "[" ++ " ".intercalate (Sprint_elems ff l) ++ "]"
  | Value.object m =>
    "map[" ++ " ".intercalate
      (((Sprint_entries ff m).insertionSort (fun a b => decide (a.1 ≤ b.1))).map
        (fun kv => kv.1 ++ ":" ++ kv.2)) ++ "]"
/-- The elements of a slice, each printed with `%v`. -/
def Sprint_elems (ff : Nat → String) : List Value → List String
  | [] => []
  | v :: vs => Sprint_v ff v :: Sprint_elems ff vs
/-- The entries of a map, each value printed with `%v`. -/
def Sprint_entries (ff : Nat → String) : List (String × Value) → List (String × String)
  | [] => []
  | (k, v) :: es => (k, Sprint_v ff v) :: Sprint_entries ff es
end

/-- Model of `fmt.Sprintf("%v", m[key])` where `none` is the missing key, which reads as the
nil interface. -/
def Sprintf_v (ff : Nat → String) : Option Value → String
  | none => "<nil>"
  | some v => Sprint_v ff v

/-! ## The program (`main.go` lines 51-200) -/

/-- The addresses of the API. -/
structure ApiT where
  url : String
  token : String
  login : String
  flights : String

/-- The variable `Api`. -/
def Api : ApiT :=
  { url := "https://de.dhv-xc.de/api/"
    token := "xc/login/status"
    login := "xc/login/login"
    flights := "fli/flights?mine=1" }

/-- The two request methods. -/
structure MethodT where
  GET : String
  POST : String

/-- The variable `Method`. -/
def Method : MethodT := { GET := "GET", POST := "POST" }

/-- The value `json.Marshal` sees for a `jsonLogin`, after the field tags `uid` and `pwd`. -/
def jsonLogin.toValue (data : jsonLogin) : Value :=
  Value.object [("uid", Value.str data.User), ("pwd", Value.str data.Pass)]

/-- The function `json_dumps` (lines 95-102). -/
def json_dumps (env : Env) (data : Value) : Prog Bytes :=
  match env.Marshal data with
  | Except.error e => do
    log Level.error none [Arg.str "Cant dump json response:"]
    Fatal none [Arg.err e]
  | Except.ok payload => pure payload

/-- The function `json_load` (lines 104-112). -/
def json_load (env : Env) (data : Bytes) : Prog JsonMap :=
  match env.UnmarshalMap data with
  | Except.error e => do
    log Level.error none [Arg.str "Cant load json response:"]
    Fatal none [Arg.err e]
  | Except.ok result => pure result

/-- The function `json_loads` (lines 114-122). -/
def json_loads (env : Env) (data : Bytes) : Prog (List Value) :=
  match env.UnmarshalList data with
  | Except.error e => do
    log Level.error none [Arg.str "Cant load json response:"]
    Fatal none [Arg.err e]
  | Except.ok result => pure result

/-- The function `load_flights` (lines 124-132). -/
def load_flights (env : Env) (data : Bytes) : Prog Flights :=
  match env.UnmarshalFlights data with
  | Except.error e => do
    log Level.error none [Arg.str "Cant load json response:"]
    Fatal none [Arg.err e]
  | Except.ok resp => pure resp

/-- The request that `httpReq` builds (lines 138-149). -/
def httpReq_request (url : String) (payload : Bytes) (method : String) (token : String) :
    Request :=
  let request : Request :=
    if method = Method.POST then ⟨method, url, some payload, []⟩ else ⟨method, url, none, []⟩
  let request := Header_Set request "Content-Type" "application/json; charset=UTF-8"
  if token ≠ "" then Header_Set request "X-CSRF-Token" token else request

/-- The function `httpReq` (lines 134-161).  The error of `http.NewRequest` is dropped, so on
an error the request is nil and `request.Header.Set` panics; the error of `ioutil.ReadAll` is
dropped and the bytes read so far are returned. -/
def httpReq (env : Env) (url : String) (payload : Bytes) (method : String) (token : String) :
    Prog Bytes := do
  log Level.debug none [Arg.str url]
  log Level.debug (some "Request: [%s]") [Arg.bytes payload]
  if env.NewRequestOk method url = false then
    goPanic "invalid memory address or nil pointer dereference"
  else
    if token ≠ "" then
      log Level.debug none [Arg.str "setting token header"]
    let response ← client_Do env (httpReq_request url payload method token)
    match response with
    | Except.error e => Fatal none [Arg.err e]
    | Except.ok response => do
      let body := response.body
      log Level.debug (some "Response: [%s]") [Arg.bytes body]
      log Level.debug (some "Got cookie: [%s]") [Arg.cookies response.cookies]
      pure body

/-- The function `success` (lines 163-168). -/
def success (resp : JsonMap) : Bool :=
  match resp.lookup "success" with
  | some _ => true
  | none => false

/-- The function `getToken` (lines 170-180).  The type assertion on `resp["meta"]` has one
result, so it panics when the value is missing or not an object; the text of the panic, which
in Go names the type found, is kept short. -/
def getToken (env : Env) (data : jsonLogin) : Prog String := do
  let payload ← json_dumps env data.toValue
  let body ← httpReq env (Api.url ++ Api.token) payload Method.GET ""
  let resp ← json_load env body
  if success resp = false then
    Fatal (some "Unable to get token: [%s]") [Arg.value (resp.lookup "message")]
  else
    log Level.debug none [Arg.map resp]
    match resp.lookup "meta" with
    | some (Value.object m) => do
      log Level.debug none [Arg.value (m.lookup "token")]
      pure (Sprintf_v env.FormatFloat (m.lookup "token"))
    | _ => goPanic "interface conversion: interface {} is not map[string]interface {}"

/-- The function `makedir` (lines 194-200). -/
def makedir (env : Env) (path : String) : Prog Unit := do
  let err ← os_Stat env path
  if IsNotExist err then
    let err ← os_Mkdir env path 0o755
    if IsNotExist err then
      Fatal (some "Unable to create target dir: [%s]") [Arg.oserr err]

/-- The function `saveIgc` (lines 182-192); `token` is the global variable of that name.
The errors of `os.Create`, `Write` and `Close` are dropped. -/
def saveIgc (env : Env) (token : String) (id : String) (targetdir : String) (date : String) :
    Prog Int := do
  makedir env (targetdir ++ "/" ++ date)
  let igcurl := "https://en.dhv-xc.de/flight/" ++ id ++ "/igc"
  let payload ← json_dumps env (Value.str "")
  let igcdata ← httpReq env igcurl payload Method.GET token
  let f ← os_Create env (targetdir ++ "/" ++ date ++ "/" ++ id ++ ".igc")
  log Level.info (some "Saving flight: [%s] to: [%s/%s/%s.igc]")
    [Arg.str id, Arg.str targetdir, Arg.str date, Arg.str id]
  let _ ← File_Write env f igcdata
  let _ ← File_Close env f
  pure 1

/-! ## The procedure `main` (lines 202-261)

The options are the parsed command line.  The goroutines of the loop are run one after the
other: `sched` picks the order in which the issued invocations of `saveIgc` take place, each
adding its result to `saved`.  The invocation that `main` makes itself is the last statement of
the loop and the goroutines may run before or after it, so every order of the invocations is
such a run.  Go adds with wrap around at 64 bits, which the tally of a flight list cannot
reach. -/

/-- The login step of `main` (lines 227-232). -/
def main_login (env : Env) (data : jsonLogin) (token : String) : Prog Unit := do
  let payload ← json_dumps env data.toValue
  let body ← httpReq env (Api.url ++ Api.login) payload Method.POST token
  let resp ← json_load env body
  if success resp = false then
    Fatal (some "Authentication failed: [%s]") [Arg.value (resp.lookup "message")]
  else
    log Level.info none [Arg.str "Logged in"]

/-- The request for the flight list (lines 233-234). -/
def main_flights (env : Env) (data : jsonLogin) (token : String) : Prog Flights := do
  let payload ← json_dumps env data.toValue
  let bodyp ← httpReq env (Api.url ++ Api.flights) payload Method.GET token
  load_flights env bodyp

/-- The lines printed in list mode (lines 239-243), in the order of the list. -/
def print_flights : List FlightInfo → Prog Unit
  | [] => pure ()
  | f :: rest => do
    log Level.info (some "Flight ID: [%s] Takeoff: [%s] Date: [%s]")
      [Arg.str f.ID, Arg.str f.TakeOff, Arg.str f.DATE]
    print_flights rest

/-- The statements `saved += saveIgc(..)` carried out one after the other. -/
def download (env : Env) (token : String) : List Call → Int → Prog Int
  | [], saved => pure saved
  | c :: rest, saved => do
    let n ← saveIgc env token c.id c.targetdir c.date
    download env token rest (saved + n)

/-- The loop of `main`, the wait for the goroutines and the report (lines 235-260).  The loop
prints in list mode only and downloads otherwise only. -/
def main_downloads (env : Env) (token : String) (options : Options) (flights : Flights)
    (sched : List Call → List Call) : Prog Unit := do
  let steps := main_loop options flights.Data
  print_flights (printed steps)
  let saved ← download env token (sched (saveIgcCalls steps)) 0
  log Level.info (some "Saved [%d] flights") [Arg.int saved]

/-- The procedure `main` after the command line is parsed (lines 218-260). -/
def main (env : Env) (options : Options) (sched : List Call → List Call) : Prog Unit := do
  makedir env options.Dir
  let data : jsonLogin := { User := options.User, Pass := options.Pass }
  let token ← getToken env data
  log Level.info (some "Got token: [%s]") [Arg.str token]
  main_login env data token
  let flights ← main_flights env data token
  main_downloads env token options flights sched

/-! ## Observations on a history -/

/-- The requests sent, in order. -/
def requested : History → List Request
  | [] => []
  | Action.send r :: h => r :: requested h
  | _ :: h => requested h

/-- The calls of `os.Create`, by the path asked for, in order.  A call is listed whether or not
a file came of it, so the list bounds the files from above; the files are `filesCreated`. -/
def created : History → List String
  | [] => []
  | Action.create p :: h => p :: created h
  | _ :: h => created h

/-- The calls of `Write`, by the file and the data, in order.  A call is listed whether or not
the data reached the file; what reached a file is `filesWritten`. -/
def written : History → List (String × Bytes)
  | [] => []
  | Action.write p d :: h => (p, d) :: written h
  | _ :: h => written h

/-- An environment in which nothing fails: no directory exists yet, the server answers every
request with the same three bytes, and the JSON answers hold one flight. -/
def sampleEnv : Env where
  Stat := fun _ _ => some OsError.notExist
  Mkdir := fun _ _ _ => none
  Create := fun _ _ => none
  Write := fun _ _ _ => none
  Close := fun _ _ => none
  NewRequestOk := fun _ _ => true
  Do := fun _ _ => Except.ok ⟨[73, 71, 67], none, []⟩
  Marshal := fun _ => Except.ok [34, 34]
  UnmarshalMap := fun _ =>
    Except.ok [("success", Value.bool true), ("meta", Value.object [("token", Value.str "tok")])]
  UnmarshalList := fun _ => Except.ok []
  UnmarshalFlights := fun _ => Except.ok ⟨[⟨"7", "2022-05-01", "Brauneck"⟩], true, ""⟩
  FormatFloat := fun _ => "0"

/-! ## Definitions used in the statements and proofs -/

/-- Whether the loop takes the flight for the requested one: `has_id == options.ID`. -/
def matchesID (options : Options) (f : FlightInfo) : Bool :=
  decide ((Atoi f.ID).1 = options.ID)

/-- The log lines of `httpReq` that precede the request. -/
def httpReq_before (url : String) (payload : Bytes) (token : String) : History :=
  [Action.log Level.debug none [Arg.str url],
   Action.log Level.debug (some "Request: [%s]") [Arg.bytes payload]] ++
  (if token ≠ "" then [Action.log Level.debug none [Arg.str "setting token header"]] else [])

/-- The URL from which `saveIgc` fetches the flight. -/
def igcUrl (id : String) : String := "https://en.dhv-xc.de/flight/" ++ id ++ "/igc"

/-- The file to which `saveIgc` writes the flight. -/
def igcPath (targetdir date id : String) : String :=
  targetdir ++ "/" ++ date ++ "/" ++ id ++ ".igc"

/-- The line that list mode prints for a flight. -/
def flightLine (f : FlightInfo) : Action :=
  Action.log Level.info (some "Flight ID: [%s] Takeoff: [%s] Date: [%s]")
    [Arg.str f.ID, Arg.str f.TakeOff, Arg.str f.DATE]

/-- The URL of the token request. -/
def tokenUrl : String := "https://de.dhv-xc.de/api/xc/login/status"

/-- The URL of the login request. -/
def loginUrl : String := "https://de.dhv-xc.de/api/xc/login/login"

/-- The history after an answered request of `httpReq`. -/
def httpReq_after (h : History) (url : String) (payload : Bytes) (method token : String)
    (r : Response) : History :=
  h ++ httpReq_before url payload token ++
    [Action.send (httpReq_request url payload method token),
     Action.log Level.debug (some "Response: [%s]") [Arg.bytes r.body],
     Action.log Level.debug (some "Got cookie: [%s]") [Arg.cookies r.cookies]]

/-- The requests that a procedure sends when it starts with the history `h`. -/
def Sends {α : Type} (m : Prog α) (h : History) (l : List Request) : Prop :=
  requested (m h).history = requested h ++ l

/-- An environment like the sample one in which no file can be created or written. -/
def readOnlyEnv : Env :=
  { sampleEnv with
    Create := fun _ _ => some OsError.permission
    Write := fun _ _ _ => some OsError.permission }

/-- An environment like the sample one in which reading the body of an answer breaks off with
an error after one byte. -/
def truncatedEnv : Env :=
  { sampleEnv with Do := fun _ _ => Except.ok ⟨[73], some "unexpected EOF", []⟩ }

/-- An environment like the sample one in which no request gets through. -/
def offlineEnv : Env :=
  { sampleEnv with Do := fun _ _ => Except.error "dial tcp: no route to host" }

/-- The files that came into being: the paths of the calls of `os.Create` in the second history
that the environment has answered without error, the first history being what went before. -/
def filesCreated (env : Env) : History → History → List String
  | _, [] => []
  | pre, Action.create p :: rest =>
    (if env.Create pre p = none then [p] else []) ++
      filesCreated env (pre ++ [Action.create p]) rest
  | pre, a :: rest => filesCreated env (pre ++ [a]) rest

/-- The data that reached a file: the calls of `Write` in the second history that the
environment has answered without error, with the file, the first history being what went
before. -/
def filesWritten (env : Env) : History → History → List (String × Bytes)
  | _, [] => []
  | pre, Action.write p d :: rest =>
    (if env.Write pre p d = none then [(p, d)] else []) ++
      filesWritten env (pre ++ [Action.write p d]) rest
  | pre, a :: rest => filesWritten env (pre ++ [a]) rest

/-- The environment lets the invocation `c` of `saveIgc` go through whenever it takes place:
`makedir` returns, the request is built and answered with `r`, the file can be created and
written. -/
def Serves (env : Env) (token : String) (payload : Bytes) (c : Call) (r : Response) : Prop :=
  (∀ hd, ∃ hd', makedir env (c.targetdir ++ "/" ++ c.date) hd = Outcome.ret () hd') ∧
  env.NewRequestOk "GET" ("https://en.dhv-xc.de/flight/" ++ c.id ++ "/igc") = true ∧
  (∀ hd, env.Do hd (httpReq_request ("https://en.dhv-xc.de/flight/" ++ c.id ++ "/igc")
    payload "GET" token) = Except.ok r) ∧
  (∀ hd, env.Create hd (c.targetdir ++ "/" ++ c.date ++ "/" ++ c.id ++ ".igc") = none) ∧
  (∀ hd data, env.Write hd (c.targetdir ++ "/" ++ c.date ++ "/" ++ c.id ++ ".igc") data = none)

/-- An environment like the sample one in which the directory `dir/2022/05` is missing, so that
`os.Mkdir` cannot make `dir/2022/05/01`. -/
def missingParentEnv : Env :=
  { sampleEnv with
    Mkdir := fun _ p _ => if p = "dir/2022/05/01" then some OsError.notExist else none }

/-! ## Lemmas -/

theorem digitChar_decimal (k : Nat) (hk : k < 10) :
    isDecimal (Nat.digitChar k) = true ∧ (Nat.digitChar k).toNat - ('0').toNat = k := by
  interval_cases k <;> decide

theorem ParseUint_loop_digit (n : Nat) (ds : List Char) (hn : n < 2 ^ 64) :
    ParseUint_loop (Nat.digitChar (n % 10) :: ds) (n / 10) = ParseUint_loop ds n := by
  have hd := digitChar_decimal (n % 10) (Nat.mod_lt _ (by decide))
  have h1 : ¬ (n / 10 ≥ maxUint64 / 10 + 1) := by
    simp only [maxUint64]; omega
  have h2 : (n / 10 * 10) % 2 ^ 64 = n / 10 * 10 := by
    apply Nat.mod_eq_of_lt; omega
  have h3 : (n / 10 * 10 + n % 10) % 2 ^ 64 = n := by
    rw [Nat.mod_eq_of_lt] <;> omega
  rw [ParseUint_loop]
  simp only [hd.1, hd.2, if_true, h1, if_false, h2, h3]
  have h4 : ¬ (n < n / 10 * 10 ∨ n > maxUint64) := by
    simp only [maxUint64]; omega
  simp only [h4, if_false]

theorem ParseUint_loop_toDigitsCore (fuel : Nat) :
    ∀ (n : Nat) (ds : List Char), n < fuel → n < 2 ^ 64 →
      ParseUint_loop (Nat.toDigitsCore 10 fuel n ds) 0 = ParseUint_loop ds n := by
  induction fuel with
  | zero => intro n ds h; omega
  | succ fuel ih =>
    intro n ds hf hn
    rw [Nat.toDigitsCore]
    by_cases h0 : n / 10 = 0
    · simp only [h0, if_true]
      have := ParseUint_loop_digit n ds hn
      rw [h0] at this
      exact this
    · simp only [h0, if_false]
      rw [ih (n / 10) _ (by omega) (by omega)]
      exact ParseUint_loop_digit n ds hn

theorem toDigitsCore_head (fuel : Nat) :
    ∀ (n : Nat) (ds : List Char),
      ∃ c cs, Nat.toDigitsCore 10 (fuel + 1) n ds = c :: cs ∧ isDecimal c = true := by
  induction fuel with
  | zero =>
    intro n ds
    refine ⟨Nat.digitChar (n % 10), ds, ?_, (digitChar_decimal _ (Nat.mod_lt _ (by decide))).1⟩
    simp [Nat.toDigitsCore]
  | succ fuel ih =>
    intro n ds
    rw [Nat.toDigitsCore]
    by_cases h0 : n / 10 = 0
    · simp only [h0, if_true]
      exact ⟨_, _, rfl, (digitChar_decimal _ (Nat.mod_lt _ (by decide))).1⟩
    · simp only [h0, if_false]
      exact ih _ _

theorem ParseUint_toDigits (n : Nat) (hn : n < 2 ^ 64) :
    ParseUint (Nat.toDigits 10 n) = (n, none) := by
  obtain ⟨c, cs, hc, _⟩ := toDigitsCore_head n n []
  have hne : Nat.toDigits 10 n ≠ [] := by
    rw [Nat.toDigits, hc]; simp
  rw [ParseUint, if_neg hne, Nat.toDigits, ParseUint_loop_toDigitsCore _ _ _ (by omega) hn]
  rfl

theorem isDecimal_not_sign (c : Char) (hc : isDecimal c = true) : c ≠ '+' ∧ c ≠ '-' := by
  constructor <;> (intro h; subst h; revert hc; decide)

theorem Atoi_Sprintf_d (v : Int) (hv : isInt v) : Atoi (Sprintf_d v) = (v, none) := by
  obtain ⟨hlo, hhi⟩ := hv
  obtain ⟨c, cs, hc, hdec⟩ := toDigitsCore_head v.natAbs v.natAbs []
  have hs := isDecimal_not_sign c hdec
  have hP := ParseUint_toDigits v.natAbs (by omega)
  by_cases hneg : v < 0
  · have e1 : (('-' : Char) == '+') = false := by decide
    have e2 : (('-' : Char) == '-') = true := by decide
    have h1 : ¬ (9223372036854775808 < v.natAbs) := by omega
    have h2 : wrap64 (-wrap64 |v|) = v := by
      rw [abs_of_neg hneg]; unfold wrap64; omega
    simp only [Atoi, Sprintf_d, hneg, if_true, ParseInt, List.cons_append, List.nil_append]
    simp only [e1, e2, hP, IntSize]
    simp [hP, h1, h2]
  · rw [Nat.toDigits, hc] at hP
    have e1 : (c == '+') = false := by simpa using hs.1
    have e2 : (c == '-') = false := by simpa using hs.2
    have h1 : ¬ (9223372036854775808 ≤ v.natAbs) := by omega
    have h2 : wrap64 |v| = v := by
      rw [abs_of_nonneg (by omega)]; unfold wrap64; omega
    simp only [Atoi, Sprintf_d, hneg, if_false, List.nil_append, Nat.toDigits, hc, ParseInt]
    simp only [e1, e2, hP, IntSize]
    simp [hP, h1, h2]

theorem Sprintf_d_ne_empty (v : Int) : Sprintf_d v ≠ "" := by
  obtain ⟨c, cs, hc, _⟩ := toDigitsCore_head v.natAbs v.natAbs []
  intro h
  have h2 := congrArg String.data h
  simp [Sprintf_d, Nat.toDigits, hc] at h2

theorem Atoi_empty : Atoi "" = (0, some NumError.ErrSyntax) := by decide

theorem Atoi_syntax (s : String) (h : (Atoi s).2 = some NumError.ErrSyntax) : (Atoi s).1 = 0 := by
  unfold Atoi at *
  cases hd : s.data with
  | nil => rfl
  | cons c cs =>
    rw [hd] at h
    simp only [ParseInt] at h ⊢
    generalize ParseUint (if (c == '+') = true ∨ (c == '-') = true then cs else c :: cs) = r at h ⊢
    by_cases h1 : r.2 = some NumError.ErrSyntax
    · simp [h1]
    · exfalso
      simp only [h1, if_false] at h
      split_ifs at h <;> simp at h

theorem main_loop_list (options : Options) (flights : List FlightInfo) (hL : options.List = true) :
    main_loop options flights = flights.map Step.print := by
  induction flights with
  | nil => rfl
  | cons f rest ih => simp [main_loop, hL, ih]

theorem main_loop_default (options : Options) (flights : List FlightInfo)
    (hL : options.List = false) (hID : options.ID = 0) :
    main_loop options flights = flights.map (fun f => Step.spawn ⟨f.ID, options.Dir, f.DATE⟩) := by
  induction flights with
  | nil => rfl
  | cons f rest ih => simp [main_loop, hL, hID, ih]

theorem saveIgcCalls_map_spawn (g : FlightInfo → Call) (l : List FlightInfo) :
    saveIgcCalls (l.map (fun f => Step.spawn (g f))) = l.map g := by
  induction l with
  | nil => rfl
  | cons f rest ih => simp [saveIgcCalls, ih]

theorem saveIgcCalls_map_print (l : List FlightInfo) :
    saveIgcCalls (l.map Step.print) = [] := by
  induction l with
  | nil => rfl
  | cons f rest ih => simp [saveIgcCalls, ih]

theorem printed_map_print (l : List FlightInfo) : printed (l.map Step.print) = l := by
  induction l with
  | nil => rfl
  | cons f rest ih => simp [printed, ih]

theorem saveIgcCalls_filter (options : Options) (flights : List FlightInfo)
    (hL : options.List = false) (hID : options.ID ≠ 0) :
    saveIgcCalls (main_loop options flights) =
      (flights.takeWhile (matchesID options)).map (fun f => ⟨f.ID, options.Dir, f.DATE⟩) ++
      (if flights.all (matchesID options) then []
       else [⟨Sprintf_d options.ID, options.Dir, "today"⟩]) := by
  induction flights with
  | nil => rfl
  | cons f rest ih =>
    by_cases hm : (Atoi f.ID).1 = options.ID
    · simp [main_loop, hL, hID, hm, matchesID, saveIgcCalls, List.takeWhile] at ih ⊢
      exact ih
    · simp [main_loop, hL, hID, hm, matchesID, saveIgcCalls, List.takeWhile]

@[simp]
theorem Prog.bind_eq {α β : Type} (m : Prog α) (f : α → Prog β) (h : History) :
    (m >>= f) h = match m h with
      | Outcome.ret a h1 => f a h1
      | Outcome.exit c h1 => Outcome.exit c h1
      | Outcome.panic s h1 => Outcome.panic s h1 := rfl

@[simp]
theorem Prog.pure_eq {α : Type} (a : α) (h : History) :
    (pure a : Prog α) h = Outcome.ret a h := rfl

theorem requested_append (a b : History) : requested (a ++ b) = requested a ++ requested b := by
  induction a with
  | nil => rfl
  | cons x a ih => cases x <;> simp [requested, ih]

theorem created_append (a b : History) : created (a ++ b) = created a ++ created b := by
  induction a with
  | nil => rfl
  | cons x a ih => cases x <;> simp [created, ih]

theorem written_append (a b : History) : written (a ++ b) = written a ++ written b := by
  induction a with
  | nil => rfl
  | cons x a ih => cases x <;> simp [written, ih]

/-- The actions of `makedir` are a `Stat` and at most a `Mkdir`; it ends the process exactly when
both report that the path does not exist. -/
theorem makedir_shape (env : Env) (path : String) (h : History) :
    ∃ acts, requested acts = [] ∧ created acts = [] ∧ written acts = [] ∧
      ((makedir env path h = Outcome.ret () (h ++ acts) ∧
          ¬ (IsNotExist (env.Stat h path) = true ∧
            IsNotExist (env.Mkdir (h ++ [Action.stat path]) path 0o755) = true)) ∨
       (makedir env path h = Outcome.exit 1 (h ++ acts) ∧
          IsNotExist (env.Stat h path) = true ∧
            IsNotExist (env.Mkdir (h ++ [Action.stat path]) path 0o755) = true)) := by
  by_cases h1 : IsNotExist (env.Stat h path) = true
  · by_cases h2 : IsNotExist (env.Mkdir (h ++ [Action.stat path]) path 0o755) = true
    · refine ⟨[Action.stat path, Action.mkdir path 0o755,
        Action.log Level.fatal (some "Unable to create target dir: [%s]")
          [Arg.oserr (env.Mkdir (h ++ [Action.stat path]) path 0o755)]], rfl, rfl, rfl, Or.inr ?_⟩
      simp [makedir, os_Stat, os_Mkdir, h1, h2, Fatal]
    · refine ⟨[Action.stat path, Action.mkdir path 0o755], rfl, rfl, rfl, Or.inl ?_⟩
      simp [makedir, os_Stat, os_Mkdir, h1, h2]
  · refine ⟨[Action.stat path], rfl, rfl, rfl, Or.inl ?_⟩
    simp [makedir, os_Stat, h1]

theorem json_dumps_ok (env : Env) (v : Value) (payload : Bytes) (h : History)
    (hM : env.Marshal v = Except.ok payload) : json_dumps env v h = Outcome.ret payload h := by
  simp [json_dumps, hM]

theorem json_dumps_error (env : Env) (v : Value) (e : String) (h : History)
    (hM : env.Marshal v = Except.error e) :
    json_dumps env v h = Outcome.exit 1 (h ++ [Action.log Level.error none
      [Arg.str "Cant dump json response:"], Action.log Level.fatal none [Arg.err e]]) := by
  simp [json_dumps, hM, log, act, Fatal]

theorem httpReq_panic (env : Env) (url : String) (payload : Bytes) (method token : String)
    (h : History) (hN : env.NewRequestOk method url = false) :
    httpReq env url payload method token h =
      Outcome.panic "invalid memory address or nil pointer dereference"
        (h ++ [Action.log Level.debug none [Arg.str url],
          Action.log Level.debug (some "Request: [%s]") [Arg.bytes payload]]) := by
  simp [httpReq, log, act, hN, goPanic]

theorem httpReq_error (env : Env) (url : String) (payload : Bytes) (method token : String)
    (h : History) (e : String) (hN : env.NewRequestOk method url = true)
    (hD : env.Do (h ++ httpReq_before url payload token)
      (httpReq_request url payload method token) = Except.error e) :
    httpReq env url payload method token h =
      Outcome.exit 1 (h ++ httpReq_before url payload token ++
        [Action.send (httpReq_request url payload method token),
         Action.log Level.fatal none [Arg.err e]]) := by
  by_cases ht : token = ""
  · simp [httpReq_before, ht] at hD
    simp [httpReq, httpReq_before, log, act, hN, ht, client_Do, hD, Fatal]
  · simp [httpReq_before, ht] at hD
    simp [httpReq, httpReq_before, log, act, hN, ht, client_Do, hD, Fatal]

theorem httpReq_ok (env : Env) (url : String) (payload : Bytes) (method token : String)
    (h : History) (r : Response) (hN : env.NewRequestOk method url = true)
    (hD : env.Do (h ++ httpReq_before url payload token)
      (httpReq_request url payload method token) = Except.ok r) :
    httpReq env url payload method token h =
      Outcome.ret r.body (h ++ httpReq_before url payload token ++
        [Action.send (httpReq_request url payload method token),
         Action.log Level.debug (some "Response: [%s]") [Arg.bytes r.body],
         Action.log Level.debug (some "Got cookie: [%s]") [Arg.cookies r.cookies]]) := by
  by_cases ht : token = ""
  · simp [httpReq_before, ht] at hD
    simp [httpReq, httpReq_before, log, act, hN, ht, client_Do, hD]
  · simp [httpReq_before, ht] at hD
    simp [httpReq, httpReq_before, log, act, hN, ht, client_Do, hD]

theorem requested_httpReq_before (url : String) (payload : Bytes) (token : String) :
    requested (httpReq_before url payload token) = [] ∧
    created (httpReq_before url payload token) = [] ∧
    written (httpReq_before url payload token) = [] := by
  by_cases ht : token = "" <;> simp [httpReq_before, ht, requested, created, written]

theorem Prog.bind_ret_inv {α β : Type} {m : Prog α} {f : α → Prog β} {h h' : History} {b : β}
    (hb : (m >>= f) h = Outcome.ret b h') :
    ∃ a h1, m h = Outcome.ret a h1 ∧ f a h1 = Outcome.ret b h' := by
  rw [Prog.bind_eq] at hb
  cases hm : m h with
  | ret a h1 => rw [hm] at hb; exact ⟨a, h1, rfl, hb⟩
  | exit c h1 => rw [hm] at hb; cases hb
  | panic s h1 => rw [hm] at hb; cases hb

theorem httpReq_ret_inv (env : Env) (url : String) (payload : Bytes) (method token : String)
    (h h' : History) (body : Bytes)
    (hr : httpReq env url payload method token h = Outcome.ret body h') :
    ∃ r, env.Do (h ++ httpReq_before url payload token)
        (httpReq_request url payload method token) = Except.ok r ∧ body = r.body ∧
      env.NewRequestOk method url = true ∧
      h' = h ++ httpReq_before url payload token ++
        [Action.send (httpReq_request url payload method token),
         Action.log Level.debug (some "Response: [%s]") [Arg.bytes r.body],
         Action.log Level.debug (some "Got cookie: [%s]") [Arg.cookies r.cookies]] := by
  cases hN : env.NewRequestOk method url with
  | false => rw [httpReq_panic _ _ _ _ _ _ hN] at hr; cases hr
  | true =>
    cases hD : env.Do (h ++ httpReq_before url payload token)
        (httpReq_request url payload method token) with
    | error e => rw [httpReq_error _ _ _ _ _ _ e hN hD] at hr; cases hr
    | ok r =>
      rw [httpReq_ok _ _ _ _ _ _ r hN hD] at hr
      cases hr
      exact ⟨r, rfl, rfl, rfl, rfl⟩

/-- The end of `saveIgc`, from `os.Create` on. -/
theorem saveIgc_tail (env : Env) (id targetdir date : String) (igcdata : Bytes) (h : History) :
    ∃ acts, requested acts = [] ∧ created acts = [igcPath targetdir date id] ∧
      written acts = (if env.Create h (igcPath targetdir date id) = none
        then [(igcPath targetdir date id, igcdata)] else []) ∧
      (do
        let f ← os_Create env (targetdir ++ "/" ++ date ++ "/" ++ id ++ ".igc")
        log Level.info (some "Saving flight: [%s] to: [%s/%s/%s.igc]")
          [Arg.str id, Arg.str targetdir, Arg.str date, Arg.str id]
        let _ ← File_Write env f igcdata
        let _ ← File_Close env f
        (pure 1 : Prog Int)) h = Outcome.ret 1 (h ++ acts) := by
  by_cases hc : env.Create h (igcPath targetdir date id) = none
  · refine ⟨[Action.create (igcPath targetdir date id),
      Action.log Level.info (some "Saving flight: [%s] to: [%s/%s/%s.igc]")
        [Arg.str id, Arg.str targetdir, Arg.str date, Arg.str id],
      Action.write (igcPath targetdir date id) igcdata,
      Action.close (igcPath targetdir date id)], rfl, rfl, ?_, ?_⟩
    · simp [hc, written]
    · simp only [igcPath] at hc
      simp [os_Create, log, act, File_Write, File_Close, hc, igcPath]
  · refine ⟨[Action.create (igcPath targetdir date id),
      Action.log Level.info (some "Saving flight: [%s] to: [%s/%s/%s.igc]")
        [Arg.str id, Arg.str targetdir, Arg.str date, Arg.str id]], rfl, rfl, ?_, ?_⟩
    · simp [hc, written]
    · simp only [igcPath] at hc
      simp [os_Create, log, act, File_Write, File_Close, hc, igcPath]

/-- An invocation of `saveIgc` returns 1 as soon as the directory step does not end the process,
the payload can be encoded and the request is built and answered, whatever becomes of the file. -/
theorem saveIgc_ok (env : Env) (token id targetdir date : String) (h : History)
    (payload : Bytes) (r : Response)
    (hMk : ¬ (IsNotExist (env.Stat h (targetdir ++ "/" ++ date)) = true ∧
      IsNotExist (env.Mkdir (h ++ [Action.stat (targetdir ++ "/" ++ date)])
        (targetdir ++ "/" ++ date) 0o755) = true))
    (hM : env.Marshal (Value.str "") = Except.ok payload)
    (hN : env.NewRequestOk Method.GET (igcUrl id) = true)
    (hD : ∀ hd, env.Do hd (httpReq_request (igcUrl id) payload Method.GET token) = Except.ok r) :
    ∃ acts hc, saveIgc env token id targetdir date h = Outcome.ret 1 (h ++ acts) ∧
      requested acts = [httpReq_request (igcUrl id) payload Method.GET token] ∧
      created acts = [igcPath targetdir date id] ∧
      written acts = (if env.Create hc (igcPath targetdir date id) = none
        then [(igcPath targetdir date id, r.body)] else []) := by
  obtain ⟨a1, q1, q2, q3, hmk⟩ := makedir_shape env (targetdir ++ "/" ++ date) h
  rcases hmk with ⟨hmk, _⟩ | ⟨_, hbad⟩
  swap
  · exact absurd hbad hMk
  have hreq := httpReq_ok env (igcUrl id) payload Method.GET token (h ++ a1) r hN (hD _)
  obtain ⟨a4, t1, t2, t3, ht⟩ := saveIgc_tail env id targetdir date r.body
    (h ++ a1 ++ httpReq_before (igcUrl id) payload token ++
      [Action.send (httpReq_request (igcUrl id) payload Method.GET token),
       Action.log Level.debug (some "Response: [%s]") [Arg.bytes r.body],
       Action.log Level.debug (some "Got cookie: [%s]") [Arg.cookies r.cookies]])
  obtain ⟨b1, b2, b3⟩ := requested_httpReq_before (igcUrl id) payload token
  refine ⟨a1 ++ httpReq_before (igcUrl id) payload token ++
      [Action.send (httpReq_request (igcUrl id) payload Method.GET token),
       Action.log Level.debug (some "Response: [%s]") [Arg.bytes r.body],
       Action.log Level.debug (some "Got cookie: [%s]") [Arg.cookies r.cookies]] ++ a4,
      (h ++ a1 ++ httpReq_before (igcUrl id) payload token ++
      [Action.send (httpReq_request (igcUrl id) payload Method.GET token),
       Action.log Level.debug (some "Response: [%s]") [Arg.bytes r.body],
       Action.log Level.debug (some "Got cookie: [%s]") [Arg.cookies r.cookies]]),
      ?_, ?_, ?_, ?_⟩
  · unfold saveIgc
    rw [Prog.bind_eq, hmk]
    simp only
    rw [Prog.bind_eq, json_dumps_ok _ _ _ _ hM]
    simp only
    rw [Prog.bind_eq]
    unfold igcUrl at hreq
    rw [hreq]
    simp only
    unfold igcUrl at ht
    rw [ht]
    simp [igcUrl]
  · rw [requested_append, requested_append, requested_append, q1, b1, t1]; rfl
  · rw [created_append, created_append, created_append, q2, b2, t2]; rfl
  · rw [written_append, written_append, written_append, q3, b3, t3]; rfl

theorem mem_saveIgcCalls_filter (options : Options) (flights : List FlightInfo)
    (hL : options.List = false) (hID : options.ID ≠ 0) (c : Call)
    (hc : c ∈ saveIgcCalls (main_loop options flights)) :
    (∃ f ∈ flights, (Atoi f.ID).1 = options.ID ∧ c = ⟨f.ID, options.Dir, f.DATE⟩) ∨
    c = ⟨Sprintf_d options.ID, options.Dir, "today"⟩ := by
  rw [saveIgcCalls_filter options flights hL hID] at hc
  rcases List.mem_append.mp hc with h | h
  · left
    obtain ⟨f, hf, rfl⟩ := List.mem_map.mp h
    have h1 := List.mem_takeWhile_imp hf
    exact ⟨f, (List.takeWhile_sublist _).subset hf, by simpa [matchesID] using h1, rfl⟩
  · right
    split_ifs at h
    · simp at h
    · simpa using h

theorem print_flights_eq (l : List FlightInfo) :
    ∀ h, print_flights l h = Outcome.ret () (h ++ l.map flightLine) := by
  induction l with
  | nil => intro h; simp [print_flights]
  | cons f rest ih =>
    intro h
    simp [print_flights, log, act, ih, flightLine]

theorem requested_map_flightLine (l : List FlightInfo) :
    requested (l.map flightLine) = [] ∧ created (l.map flightLine) = [] ∧
      written (l.map flightLine) = [] := by
  induction l with
  | nil => exact ⟨rfl, rfl, rfl⟩
  | cons f rest ih => simp [flightLine, requested, created, written] at ih ⊢; exact ih

theorem json_load_ok (env : Env) (data : Bytes) (resp : JsonMap) (h : History)
    (hU : env.UnmarshalMap data = Except.ok resp) : json_load env data h = Outcome.ret resp h := by
  simp [json_load, hU]

theorem json_load_error (env : Env) (data : Bytes) (e : String) (h : History)
    (hU : env.UnmarshalMap data = Except.error e) :
    json_load env data h = Outcome.exit 1 (h ++ [Action.log Level.error none
      [Arg.str "Cant load json response:"], Action.log Level.fatal none [Arg.err e]]) := by
  simp [json_load, hU, log, act, Fatal]

/-- The run of `getToken` once the request is answered with a JSON object. -/
theorem getToken_eq (env : Env) (data : jsonLogin) (h : History) (payload : Bytes)
    (r : Response) (resp : JsonMap)
    (hM : env.Marshal data.toValue = Except.ok payload)
    (hN : env.NewRequestOk "GET" tokenUrl = true)
    (hD : env.Do (h ++ httpReq_before tokenUrl payload "")
      (httpReq_request tokenUrl payload "GET" "") = Except.ok r)
    (hU : env.UnmarshalMap r.body = Except.ok resp) :
    getToken env data h =
      if success resp = false then
        Outcome.exit 1 (httpReq_after h tokenUrl payload "GET" "" r ++
          [Action.log Level.fatal (some "Unable to get token: [%s]")
            [Arg.value (resp.lookup "message")]])
      else
        match resp.lookup "meta" with
        | some (Value.object m) =>
          Outcome.ret (Sprintf_v env.FormatFloat (m.lookup "token"))
            (httpReq_after h tokenUrl payload "GET" "" r ++
              [Action.log Level.debug none [Arg.map resp],
               Action.log Level.debug none [Arg.value (m.lookup "token")]])
        | _ =>
          Outcome.panic "interface conversion: interface {} is not map[string]interface {}"
            (httpReq_after h tokenUrl payload "GET" "" r ++
              [Action.log Level.debug none [Arg.map resp]]) := by
  have hreq := httpReq_ok env tokenUrl payload "GET" "" h r hN hD
  have e1 : Api.url ++ Api.token = tokenUrl := by decide
  have e2 : Method.GET = "GET" := rfl
  unfold getToken
  rw [Prog.bind_eq, json_dumps_ok _ _ _ _ hM]
  simp only
  rw [Prog.bind_eq, e1, e2, hreq]
  simp only
  rw [Prog.bind_eq, json_load_ok _ _ _ _ hU]
  simp only
  by_cases hs : success resp = false
  · simp [hs, Fatal, httpReq_after]
  · have hs2 : success resp = true := by simpa using hs
    simp only [hs2, Bool.true_eq_false, if_false]
    rw [Prog.bind_eq]
    simp only [log, act]
    cases hm : List.lookup "meta" resp with
    | none => simp [goPanic, httpReq_after]
    | some v => cases v <;> simp [goPanic, httpReq_after, act]

/-- The run of the login step once the request is answered with a JSON object. -/
theorem main_login_eq (env : Env) (data : jsonLogin) (token : String) (h : History)
    (payload : Bytes) (r : Response) (resp : JsonMap)
    (hM : env.Marshal data.toValue = Except.ok payload)
    (hN : env.NewRequestOk "POST" loginUrl = true)
    (hD : env.Do (h ++ httpReq_before loginUrl payload token)
      (httpReq_request loginUrl payload "POST" token) = Except.ok r)
    (hU : env.UnmarshalMap r.body = Except.ok resp) :
    main_login env data token h =
      if success resp = false then
        Outcome.exit 1 (httpReq_after h loginUrl payload "POST" token r ++
          [Action.log Level.fatal (some "Authentication failed: [%s]")
            [Arg.value (resp.lookup "message")]])
      else
        Outcome.ret () (httpReq_after h loginUrl payload "POST" token r ++
          [Action.log Level.info none [Arg.str "Logged in"]]) := by
  have hreq := httpReq_ok env loginUrl payload "POST" token h r hN hD
  have e1 : Api.url ++ Api.login = loginUrl := by decide
  have e2 : Method.POST = "POST" := rfl
  unfold main_login
  rw [Prog.bind_eq, json_dumps_ok _ _ _ _ hM]
  simp only
  rw [Prog.bind_eq, e1, e2, hreq]
  simp only
  rw [Prog.bind_eq, json_load_ok _ _ _ _ hU]
  simp only
  by_cases hs : success resp = false
  · simp [hs, Fatal, httpReq_after]
  · simp [hs, log, act, httpReq_after]

theorem success_iff (resp : JsonMap) :
    success resp = true ↔ "success" ∈ resp.map Prod.fst := by
  unfold success
  induction resp with
  | nil => simp [List.lookup]
  | cons kv rest ih =>
    obtain ⟨k, v⟩ := kv
    by_cases hk : "success" = k
    · subst hk; simp [List.lookup]
    · have : ("success" == k) = false := by simpa using hk
      simp only [List.lookup, this, List.map_cons, List.mem_cons, hk, false_or]
      exact ih

theorem requested_httpReq_after (h : History) (url : String) (payload : Bytes)
    (method token : String) (r : Response) :
    requested (httpReq_after h url payload method token r) =
      requested h ++ [httpReq_request url payload method token] := by
  obtain ⟨b1, _, _⟩ := requested_httpReq_before url payload token
  unfold httpReq_after
  rw [requested_append, requested_append, b1]
  simp [requested]

/-- The request of `httpReq` is sent as soon as it can be built. -/
theorem httpReq_sends (env : Env) (url : String) (payload : Bytes) (method token : String)
    (h : History) :
    Sends (httpReq env url payload method token) h
      (if env.NewRequestOk method url = true then [httpReq_request url payload method token]
       else []) := by
  obtain ⟨b1, _, _⟩ := requested_httpReq_before url payload token
  unfold Sends
  cases hN : env.NewRequestOk method url with
  | false =>
    rw [httpReq_panic _ _ _ _ _ _ hN]
    simp [Outcome.history, requested_append, requested]
  | true =>
    cases hD : env.Do (h ++ httpReq_before url payload token)
        (httpReq_request url payload method token) with
    | error e =>
      rw [httpReq_error _ _ _ _ _ _ e hN hD]
      simp only [Outcome.history, if_true]
      rw [requested_append, requested_append, b1]; simp [requested]
    | ok r =>
      rw [httpReq_ok _ _ _ _ _ _ r hN hD]
      simp only [Outcome.history, if_true]
      rw [requested_append, requested_append, b1]; simp [requested]

/-- What follows `httpReq` in `getToken` and in the login step sends nothing. -/
theorem Sends_bind_httpReq {β : Type} (env : Env) (url : String) (payload : Bytes)
    (method token : String) (h : History) (f : Bytes → Prog β)
    (hf : ∀ b h1, requested (f b h1).history = requested h1) :
    Sends (httpReq env url payload method token >>= f) h
      (if env.NewRequestOk method url = true then [httpReq_request url payload method token]
       else []) := by
  have hs := httpReq_sends env url payload method token h
  unfold Sends at hs ⊢
  rw [Prog.bind_eq]
  cases hq : httpReq env url payload method token h with
  | ret b h1 =>
    rw [hq] at hs
    simp only [Outcome.history] at hs
    simp only
    rw [hf, hs]
  | exit c h1 => rw [hq] at hs; exact hs
  | panic s h1 => rw [hq] at hs; exact hs

theorem getToken_tail_quiet (env : Env) (body : Bytes) (h1 : History) :
    requested ((do
      let resp ← json_load env body
      if success resp = false then
        (Fatal (some "Unable to get token: [%s]") [Arg.value (resp.lookup "message")] :
          Prog String)
      else
        log Level.debug none [Arg.map resp]
        match resp.lookup "meta" with
        | some (Value.object m) => do
          log Level.debug none [Arg.value (m.lookup "token")]
          pure (Sprintf_v env.FormatFloat (m.lookup "token"))
        | _ => goPanic "interface conversion: interface {} is not map[string]interface {}") h1
      ).history = requested h1 := by
  cases hU : env.UnmarshalMap body with
  | error e =>
    rw [Prog.bind_eq, json_load_error _ _ e _ hU]
    simp [Outcome.history, requested_append, requested]
  | ok resp =>
    rw [Prog.bind_eq, json_load_ok _ _ _ _ hU]
    by_cases hs : success resp = false
    · simp [hs, Fatal, Outcome.history, requested_append, requested]
    · have hs2 : success resp = true := by simpa using hs
      simp only [hs2, Bool.true_eq_false, if_false]
      cases hm : List.lookup "meta" resp with
      | none => simp [goPanic, log, act, Outcome.history, requested_append, requested]
      | some v =>
        cases v <;> simp [goPanic, log, act, Outcome.history, requested_append, requested]

theorem main_login_tail_quiet (env : Env) (body : Bytes) (h1 : History) :
    requested ((do
      let resp ← json_load env body
      if success resp = false then
        (Fatal (some "Authentication failed: [%s]") [Arg.value (resp.lookup "message")] :
          Prog Unit)
      else
        log Level.info none [Arg.str "Logged in"]) h1).history = requested h1 := by
  cases hU : env.UnmarshalMap body with
  | error e =>
    rw [Prog.bind_eq, json_load_error _ _ e _ hU]
    simp [Outcome.history, requested_append, requested]
  | ok resp =>
    rw [Prog.bind_eq, json_load_ok _ _ _ _ hU]
    by_cases hs : success resp = false
    · simp [hs, Fatal, Outcome.history, requested_append, requested]
    · simp [hs, log, act, Outcome.history, requested_append, requested]

/-- The requests of `getToken`. -/
theorem getToken_sends (env : Env) (data : jsonLogin) (h : History) :
    Sends (getToken env data) h
      (match env.Marshal data.toValue with
       | Except.ok payload =>
         if env.NewRequestOk Method.GET (Api.url ++ Api.token) = true
         then [httpReq_request (Api.url ++ Api.token) payload Method.GET ""] else []
       | Except.error _ => []) := by
  cases hM : env.Marshal data.toValue with
  | error e =>
    unfold Sends getToken
    rw [Prog.bind_eq, json_dumps_error _ _ e _ hM]
    simp [Outcome.history, requested_append, requested]
  | ok payload =>
    unfold getToken
    unfold Sends
    rw [Prog.bind_eq, json_dumps_ok _ _ _ _ hM]
    exact Sends_bind_httpReq env _ payload _ _ h _ (getToken_tail_quiet env)

/-- The requests of the login step. -/
theorem main_login_sends (env : Env) (data : jsonLogin) (token : String) (h : History) :
    Sends (main_login env data token) h
      (match env.Marshal data.toValue with
       | Except.ok payload =>
         if env.NewRequestOk Method.POST (Api.url ++ Api.login) = true
         then [httpReq_request (Api.url ++ Api.login) payload Method.POST token] else []
       | Except.error _ => []) := by
  cases hM : env.Marshal data.toValue with
  | error e =>
    unfold Sends main_login
    rw [Prog.bind_eq, json_dumps_error _ _ e _ hM]
    simp [Outcome.history, requested_append, requested]
  | ok payload =>
    unfold main_login
    unfold Sends
    rw [Prog.bind_eq, json_dumps_ok _ _ _ _ hM]
    exact Sends_bind_httpReq env _ payload _ _ h _ (main_login_tail_quiet env)

theorem Header_Get_request (url : String) (payload : Bytes) (method token : String) :
    Header_Get (httpReq_request url payload method token) "Content-Type" =
        some "application/json; charset=UTF-8" ∧
      Header_Get (httpReq_request url payload method token) "X-CSRF-Token" =
        (if token = "" then none else some token) := by
  unfold httpReq_request
  by_cases hm : method = Method.POST <;> by_cases ht : token = "" <;>
    simp [hm, ht, Header_Get, Header_Set, List.lookup]

theorem filesCreated_append (env : Env) (a : History) :
    ∀ (pre b : History),
      filesCreated env pre (a ++ b) = filesCreated env pre a ++ filesCreated env (pre ++ a) b := by
  induction a with
  | nil => intro pre b; simp [filesCreated]
  | cons x a ih =>
    intro pre b
    cases x <;> simp [filesCreated, ih]

theorem filesWritten_append (env : Env) (a : History) :
    ∀ (pre b : History),
      filesWritten env pre (a ++ b) = filesWritten env pre a ++ filesWritten env (pre ++ a) b := by
  induction a with
  | nil => intro pre b; simp [filesWritten]
  | cons x a ih =>
    intro pre b
    cases x <;> simp [filesWritten, ih]

theorem filesCreated_of_created (env : Env) (a : History) :
    ∀ pre, created a = [] → filesCreated env pre a = [] := by
  induction a with
  | nil => intro pre _; rfl
  | cons x a ih =>
    intro pre hc
    cases x <;> simp [filesCreated, created] at hc ⊢ <;> exact ih _ hc

theorem filesWritten_of_written (env : Env) (a : History) :
    ∀ pre, written a = [] → filesWritten env pre a = [] := by
  induction a with
  | nil => intro pre _; rfl
  | cons x a ih =>
    intro pre hc
    cases x <;> simp [filesWritten, written] at hc ⊢ <;> exact ih _ hc

/-- The end of `saveIgc`, from `os.Create` on, with the files it leaves. -/
theorem saveIgc_tail_files (env : Env) (id targetdir date : String) (igcdata : Bytes)
    (h : History) :
    ∃ acts hw, requested acts = [] ∧
      filesCreated env h acts = (if env.Create h (igcPath targetdir date id) = none
        then [igcPath targetdir date id] else []) ∧
      filesWritten env h acts = (if env.Create h (igcPath targetdir date id) = none ∧
          env.Write hw (igcPath targetdir date id) igcdata = none
        then [(igcPath targetdir date id, igcdata)] else []) ∧
      (do
        let f ← os_Create env (targetdir ++ "/" ++ date ++ "/" ++ id ++ ".igc")
        log Level.info (some "Saving flight: [%s] to: [%s/%s/%s.igc]")
          [Arg.str id, Arg.str targetdir, Arg.str date, Arg.str id]
        let _ ← File_Write env f igcdata
        let _ ← File_Close env f
        (pure 1 : Prog Int)) h = Outcome.ret 1 (h ++ acts) := by
  by_cases hc : env.Create h (igcPath targetdir date id) = none
  · refine ⟨[Action.create (igcPath targetdir date id),
      Action.log Level.info (some "Saving flight: [%s] to: [%s/%s/%s.igc]")
        [Arg.str id, Arg.str targetdir, Arg.str date, Arg.str id],
      Action.write (igcPath targetdir date id) igcdata,
      Action.close (igcPath targetdir date id)],
      h ++ [Action.create (igcPath targetdir date id),
        Action.log Level.info (some "Saving flight: [%s] to: [%s/%s/%s.igc]")
          [Arg.str id, Arg.str targetdir, Arg.str date, Arg.str id]], rfl, ?_, ?_, ?_⟩
    · simp [hc, filesCreated]
    · simp [hc, filesWritten]
    · simp only [igcPath] at hc
      simp [os_Create, log, act, File_Write, File_Close, hc, igcPath]
  · refine ⟨[Action.create (igcPath targetdir date id),
      Action.log Level.info (some "Saving flight: [%s] to: [%s/%s/%s.igc]")
        [Arg.str id, Arg.str targetdir, Arg.str date, Arg.str id]], h, rfl, ?_, ?_, ?_⟩
    · simp [hc, filesCreated]
    · simp [hc, filesWritten]
    · simp only [igcPath] at hc
      simp [os_Create, log, act, File_Write, File_Close, hc, igcPath]

theorem quiet_files (env : Env) (a : History) (pre : History)
    (h2 : created a = []) (h3 : written a = []) :
    filesCreated env pre a = [] ∧ filesWritten env pre a = [] :=
  ⟨filesCreated_of_created env a pre h2, filesWritten_of_written env a pre h3⟩

/-- The history of a returning invocation of `saveIgc` and the files it leaves. -/
theorem saveIgc_ret_files (env : Env) (token id targetdir date : String) (h h' : History)
    (n : Int) (hr : saveIgc env token id targetdir date h = Outcome.ret n h') :
    n = 1 ∧ ∃ acts payload r hd hc hw, h' = h ++ acts ∧
      env.Marshal (Value.str "") = Except.ok payload ∧
      env.Do hd (httpReq_request (igcUrl id) payload Method.GET token) = Except.ok r ∧
      requested acts = [httpReq_request (igcUrl id) payload Method.GET token] ∧
      filesCreated env h acts = (if env.Create hc (igcPath targetdir date id) = none
        then [igcPath targetdir date id] else []) ∧
      filesWritten env h acts = (if env.Create hc (igcPath targetdir date id) = none ∧
          env.Write hw (igcPath targetdir date id) r.body = none
        then [(igcPath targetdir date id, r.body)] else []) := by
  unfold saveIgc at hr
  obtain ⟨_, h1, hmk, hr1⟩ := Prog.bind_ret_inv hr
  obtain ⟨payload, h2, hjd, hr2⟩ := Prog.bind_ret_inv hr1
  obtain ⟨igcdata, h3, hreq, hr3⟩ := Prog.bind_ret_inv hr2
  obtain ⟨a1, q1, q2, q3, hmk2⟩ := makedir_shape env (targetdir ++ "/" ++ date) h
  rcases hmk2 with ⟨hmk2, _⟩ | ⟨hmk2, _⟩
  swap
  · rw [hmk2] at hmk; cases hmk
  rw [hmk2] at hmk
  cases hmk
  cases hM : env.Marshal (Value.str "") with
  | error e => rw [json_dumps_error _ _ e _ hM] at hjd; cases hjd
  | ok p =>
    rw [json_dumps_ok _ _ p _ hM] at hjd
    cases hjd
    obtain ⟨r, hD, hbody, _, hh3⟩ := httpReq_ret_inv _ _ _ _ _ _ _ _ hreq
    obtain ⟨a4, hw, t1, t2, t3, ht⟩ := saveIgc_tail_files env id targetdir date igcdata h3
    rw [ht] at hr3
    cases hr3
    obtain ⟨b1, b2, b3⟩ := requested_httpReq_before (igcUrl id) payload token
    subst hbody
    have m1 : ∀ pre, filesCreated env pre a1 = [] ∧ filesWritten env pre a1 = [] :=
      fun pre => quiet_files env a1 pre q2 q3
    have m2 : ∀ pre, filesCreated env pre (httpReq_before (igcUrl id) payload token) = [] ∧
        filesWritten env pre (httpReq_before (igcUrl id) payload token) = [] :=
      fun pre => quiet_files env _ pre b2 b3
    have m3 : ∀ pre, filesCreated env pre
          [Action.send (httpReq_request (igcUrl id) payload Method.GET token),
           Action.log Level.debug (some "Response: [%s]") [Arg.bytes r.body],
           Action.log Level.debug (some "Got cookie: [%s]") [Arg.cookies r.cookies]] = [] ∧
        filesWritten env pre
          [Action.send (httpReq_request (igcUrl id) payload Method.GET token),
           Action.log Level.debug (some "Response: [%s]") [Arg.bytes r.body],
           Action.log Level.debug (some "Got cookie: [%s]") [Arg.cookies r.cookies]] = [] :=
      fun pre => quiet_files env _ pre rfl rfl
    have e3 : h3 = h ++ (a1 ++ httpReq_before (igcUrl id) payload token ++
        [Action.send (httpReq_request (igcUrl id) payload Method.GET token),
         Action.log Level.debug (some "Response: [%s]") [Arg.bytes r.body],
         Action.log Level.debug (some "Got cookie: [%s]") [Arg.cookies r.cookies]]) := by
      rw [hh3]; simp [igcUrl]
    refine ⟨rfl, a1 ++ httpReq_before (igcUrl id) payload token ++
      [Action.send (httpReq_request (igcUrl id) payload Method.GET token),
       Action.log Level.debug (some "Response: [%s]") [Arg.bytes r.body],
       Action.log Level.debug (some "Got cookie: [%s]") [Arg.cookies r.cookies]] ++ a4,
      payload, r, _, h3, hw, ?_, rfl, hD, ?_, ?_, ?_⟩
    · rw [e3]; simp
    · rw [requested_append, requested_append, requested_append, q1, b1, t1]; rfl
    · rw [filesCreated_append, filesCreated_append, filesCreated_append, (m1 _).1, (m2 _).1,
        (m3 _).1, ← e3, t2]
      rfl
    · rw [filesWritten_append, filesWritten_append, filesWritten_append, (m1 _).2, (m2 _).2,
        (m3 _).2, ← e3, t3]
      rfl

/-- An invocation of `saveIgc` that the environment serves returns 1, having sent its request
and left its file with the body of the answer. -/
theorem saveIgc_served (env : Env) (token : String) (payload : Bytes) (c : Call) (r : Response)
    (h : History) (hM : env.Marshal (Value.str "") = Except.ok payload)
    (hS : Serves env token payload c r) :
    ∃ acts, saveIgc env token c.id c.targetdir c.date h = Outcome.ret 1 (h ++ acts) ∧
      requested acts = [httpReq_request ("https://en.dhv-xc.de/flight/" ++ c.id ++ "/igc")
        payload "GET" token] ∧
      filesCreated env h acts = [c.targetdir ++ "/" ++ c.date ++ "/" ++ c.id ++ ".igc"] ∧
      filesWritten env h acts =
        [(c.targetdir ++ "/" ++ c.date ++ "/" ++ c.id ++ ".igc", r.body)] := by
  obtain ⟨hMk, hN, hD, hC, hW⟩ := hS
  have hMk2 : ¬ (IsNotExist (env.Stat h (c.targetdir ++ "/" ++ c.date)) = true ∧
      IsNotExist (env.Mkdir (h ++ [Action.stat (c.targetdir ++ "/" ++ c.date)])
        (c.targetdir ++ "/" ++ c.date) 0o755) = true) := by
    obtain ⟨h1, hret⟩ := hMk h
    obtain ⟨acts, _, _, _, hc⟩ := makedir_shape env (c.targetdir ++ "/" ++ c.date) h
    rcases hc with ⟨_, hn⟩ | ⟨he, _⟩
    · exact hn
    · rw [he] at hret; cases hret
  obtain ⟨acts, _, hs, _⟩ := saveIgc_ok env token c.id c.targetdir c.date h payload r hMk2 hM
    hN hD
  obtain ⟨_, acts2, p2, r2, hd, hc, hw, e1, e2, e3, e4, e5, e6⟩ :=
    saveIgc_ret_files env token c.id c.targetdir c.date h _ 1 hs
  have ea : acts = acts2 := List.append_cancel_left e1
  subst ea
  have ep : p2 = payload := by
    rw [hM] at e2; cases e2; rfl
  subst ep
  have er : r2 = r := by
    have := hD hd
    unfold igcUrl at e3
    rw [show Method.GET = "GET" from rfl] at e3
    rw [this] at e3; cases e3; rfl
  subst er
  refine ⟨acts, hs, e4, ?_, ?_⟩
  · rw [e5]; unfold igcPath; rw [hC]; rfl
  · rw [e6]; unfold igcPath; rw [hC, hW]; simp

theorem httpReq_request_url (url : String) (payload : Bytes) (method token : String) :
    (httpReq_request url payload method token).url = url ∧
      (httpReq_request url payload method token).method = method := by
  unfold httpReq_request
  by_cases hm : method = Method.POST <;> by_cases ht : token = "" <;>
    simp [hm, ht, Header_Set]

theorem printed_main_loop (options : Options) (flights : List FlightInfo)
    (hL : options.List = false) : printed (main_loop options flights) = [] := by
  induction flights with
  | nil => rfl
  | cons f rest ih =>
    unfold main_loop
    simp only [hL, Bool.false_eq_true, if_false]
    split_ifs
    · rfl
    · simp [printed, ih]

/-- The invocations of `saveIgc` that the environment serves, run one after the other, all
return; the requests sent and the files left are theirs, in the order of the run. -/
theorem download_served (env : Env) (token : String) (payload : Bytes)
    (resp : String → Response) (hM : env.Marshal (Value.str "") = Except.ok payload)
    (calls : List Call) :
    ∀ (saved : Int) (h : History),
      (∀ c ∈ calls, Serves env token payload c (resp c.id)) →
      ∃ acts, download env token calls saved h = Outcome.ret (saved + calls.length) (h ++ acts) ∧
        requested acts = calls.map (fun c =>
          httpReq_request ("https://en.dhv-xc.de/flight/" ++ c.id ++ "/igc") payload "GET"
            token) ∧
        filesCreated env h acts = calls.map (fun c =>
          c.targetdir ++ "/" ++ c.date ++ "/" ++ c.id ++ ".igc") ∧
        filesWritten env h acts = calls.map (fun c =>
          (c.targetdir ++ "/" ++ c.date ++ "/" ++ c.id ++ ".igc", (resp c.id).body)) := by
  induction calls with
  | nil =>
    intro saved h _
    exact ⟨[], by simp [download], rfl, rfl, rfl⟩
  | cons c rest ih =>
    intro saved h hall
    obtain ⟨a1, hs, q1, q2, q3⟩ := saveIgc_served env token payload c (resp c.id) h hM
      (hall c (List.mem_cons_self _ _))
    obtain ⟨a2, hd, p1, p2, p3⟩ := ih (saved + 1) (h ++ a1)
      (fun c' hc' => hall c' (List.mem_cons_of_mem _ hc'))
    refine ⟨a1 ++ a2, ?_, ?_, ?_, ?_⟩
    · unfold download
      rw [Prog.bind_eq, hs]
      simp only
      rw [hd]
      simp only [List.length_cons, List.append_assoc]
      congr 1
      push_cast
      ring
    · rw [requested_append, q1, p1]; rfl
    · rw [filesCreated_append, q2, p2]; rfl
    · rw [filesWritten_append, q3, p3]; rfl

/-- The run of `main` from the loop on when nothing is printed and the environment serves the
invocations issued. -/
theorem main_downloads_served (env : Env) (token : String) (options : Options)
    (flights : Flights) (sched : List Call → List Call) (h : History) (payload : Bytes)
    (resp : String → Response) (hL : options.List = false) (hS : ∀ l, (sched l).Perm l)
    (hM : env.Marshal (Value.str "") = Except.ok payload)
    (hE : ∀ c ∈ saveIgcCalls (main_loop options flights.Data),
      Serves env token payload c (resp c.id)) :
    ∃ acts, main_downloads env token options flights sched h =
        Outcome.ret () (h ++ acts ++ [Action.log Level.info (some "Saved [%d] flights")
          [Arg.int (saveIgcCalls (main_loop options flights.Data)).length]]) ∧
      requested acts = (sched (saveIgcCalls (main_loop options flights.Data))).map (fun c =>
        httpReq_request ("https://en.dhv-xc.de/flight/" ++ c.id ++ "/igc") payload "GET"
          token) ∧
      filesCreated env h acts = (sched (saveIgcCalls (main_loop options flights.Data))).map
        (fun c => c.targetdir ++ "/" ++ c.date ++ "/" ++ c.id ++ ".igc") ∧
      filesWritten env h acts = (sched (saveIgcCalls (main_loop options flights.Data))).map
        (fun c => (c.targetdir ++ "/" ++ c.date ++ "/" ++ c.id ++ ".igc", (resp c.id).body)) := by
  have hall : ∀ c ∈ sched (saveIgcCalls (main_loop options flights.Data)),
      Serves env token payload c (resp c.id) :=
    fun c hc => hE c ((hS _).mem_iff.mp hc)
  obtain ⟨acts, hd, p1, p2, p3⟩ := download_served env token payload resp hM _ 0 h hall
  have hlen : (sched (saveIgcCalls (main_loop options flights.Data))).length =
      (saveIgcCalls (main_loop options flights.Data)).length := (hS _).length_eq
  refine ⟨acts, ?_, p1, p2, p3⟩
  unfold main_downloads
  simp only [printed_main_loop options flights.Data hL]
  rw [Prog.bind_eq]
  simp only [print_flights, Prog.pure_eq]
  rw [Prog.bind_eq, hd]
  simp [log, act, hlen]

/-- A run of the invocations of `saveIgc` that reaches its end has added 1 for each, and each
has sent its request; where files can be created and written, each has left its file. -/
theorem download_ret_files (env : Env) (token : String) (calls : List Call) :
    ∀ (saved : Int) (h h' : History) (n : Int),
      download env token calls saved h = Outcome.ret n h' →
      n = saved + calls.length ∧ ∃ acts, h' = h ++ acts ∧
        (requested acts).map Request.url =
          calls.map (fun c => "https://en.dhv-xc.de/flight/" ++ c.id ++ "/igc") ∧
        ((∀ hd p, env.Create hd p = none) → (∀ hd p d, env.Write hd p d = none) →
          (filesWritten env h acts).map Prod.fst =
            calls.map (fun c => c.targetdir ++ "/" ++ c.date ++ "/" ++ c.id ++ ".igc")) := by
  induction calls with
  | nil =>
    intro saved h h' n hr
    simp [download] at hr
    exact ⟨by simp [hr.1], [], by simp [hr.2], rfl, fun _ _ => rfl⟩
  | cons c rest ih =>
    intro saved h h' n hr
    unfold download at hr
    obtain ⟨k, h1, hs, hr1⟩ := Prog.bind_ret_inv hr
    obtain ⟨hk, acts, payload, r, _, hc, hw, hh1, _, _, q1, _, q3⟩ :=
      saveIgc_ret_files _ _ _ _ _ _ _ _ hs
    obtain ⟨hn, acts2, hh2, p1, p3⟩ := ih _ _ _ _ hr1
    refine ⟨?_, acts ++ acts2, ?_, ?_, ?_⟩
    · rw [hn, hk]; simp only [List.length_cons]; push_cast; ring
    · rw [hh2, hh1]; simp
    · rw [requested_append, List.map_append, q1, p1]
      simp [(httpReq_request_url _ _ _ _).1, igcUrl]
    · intro hC hW
      rw [filesWritten_append, List.map_append, q3, ← hh1, p3 hC hW, hC, hW]
      simp [igcPath]

theorem sampleEnv_serves (token : String) (c : Call) :
    Serves sampleEnv token [34, 34] c ⟨[73, 71, 67], none, []⟩ :=
  ⟨fun _ => ⟨_, rfl⟩, rfl, fun _ => rfl, fun _ => rfl, fun _ _ => rfl⟩

/-- With an ID filter every invocation of `saveIgc` is for an identifier that `strconv.Atoi`
converts to `options.ID`, the error of the conversion being dropped; so a flight whose ID
converts to another number, or has a syntax error and converts to 0, is not downloaded. -/
theorem saveIgcCalls_converts_to_ID (options : Options) (flights : List FlightInfo)
    (hI : isInt options.ID) (hL : options.List = false) (hID : options.ID ≠ 0) :
    (∀ c ∈ saveIgcCalls (main_loop options flights), (Atoi c.id).1 = options.ID) ∧
    (∀ f ∈ flights, (Atoi f.ID).1 ≠ options.ID →
      ∀ c ∈ saveIgcCalls (main_loop options flights), c.id ≠ f.ID) ∧
    (∀ f ∈ flights, (Atoi f.ID).2 = some NumError.ErrSyntax →
      ∀ c ∈ saveIgcCalls (main_loop options flights), c.id ≠ f.ID) := by
  have h1 : ∀ c ∈ saveIgcCalls (main_loop options flights), (Atoi c.id).1 = options.ID := by
    intro c hc
    rcases mem_saveIgcCalls_filter options flights hL hID c hc with ⟨f, _, hf, rfl⟩ | rfl
    · exact hf
    · simp [Atoi_Sprintf_d options.ID hI]
  refine ⟨h1, ?_, ?_⟩
  · intro f _ hf c hc hcf
    exact hf (hcf ▸ h1 c hc)
  · intro f _ hf c hc hcf
    have h0 := Atoi_syntax f.ID hf
    have := h1 c hc
    rw [hcf, h0] at this
    exact hID this.symm

/-! ## The claims -/

/-- C3: the code breaks the claim.  With `-i 9223372036854775807` and the one flight whose ID
is `9223372036854775808`, `strconv.Atoi` reports a range error and gives the largest `int`; the
error is dropped at line 246, the flight passes for the requested one, and `main` fetches
`https://en.dhv-xc.de/flight/9223372036854775808/igc` and writes it to the directory of the
flight: a flight whose ID does not parse, and is another number, is downloaded. -/
theorem C3_out_of_range_id_is_downloaded :
    Atoi "9223372036854775808" = (9223372036854775807, some NumError.ErrRange) ∧
    saveIgcCalls (main_loop ⟨"u", "p", "dir", false, 9223372036854775807⟩
        [⟨"9223372036854775808", "2022-05-01", "Brauneck"⟩]) =
      [⟨"9223372036854775808", "dir", "2022-05-01"⟩] ∧
    ∃ hx, main_downloads sampleEnv "tok" ⟨"u", "p", "dir", false, 9223372036854775807⟩
        ⟨[⟨"9223372036854775808", "2022-05-01", "Brauneck"⟩], true, ""⟩ id [] =
        Outcome.ret () ([] ++ hx ++ [Action.log Level.info (some "Saved [%d] flights")
          [Arg.int 1]]) ∧
      (requested hx).map Request.url =
        ["https://en.dhv-xc.de/flight/9223372036854775808/igc"] ∧
      filesWritten sampleEnv [] hx =
        [("dir/2022-05-01/9223372036854775808.igc", [73, 71, 67])] :=
  ⟨by decide, by decide, _, rfl, rfl, rfl⟩

/-- C4: in list mode (`List = true`), for every flight list, every ID option and every schedule,
the loop prints each flight once in the order of the list and issues no invocation of `saveIgc`;
`main` sends no request and creates and writes no file from the loop on, and reports the saved
count 0. -/
theorem C4_list_mode_prints_only (env : Env) (token : String) (options : Options)
    (flights : Flights) (sched : List Call → List Call) (h : History)
    (hL : options.List = true) (hS : ∀ l, (sched l).Perm l) :
    printed (main_loop options flights.Data) = flights.Data ∧
    saveIgcCalls (main_loop options flights.Data) = [] ∧
    main_downloads env token options flights sched h =
      Outcome.ret () (h ++ (flights.Data.map (fun f =>
          Action.log Level.info (some "Flight ID: [%s] Takeoff: [%s] Date: [%s]")
            [Arg.str f.ID, Arg.str f.TakeOff, Arg.str f.DATE]) ++
        [Action.log Level.info (some "Saved [%d] flights") [Arg.int 0]])) ∧
    requested (main_downloads env token options flights sched h).history = requested h ∧
    created (main_downloads env token options flights sched h).history = created h ∧
    written (main_downloads env token options flights sched h).history = written h := by
  have e1 : printed (main_loop options flights.Data) = flights.Data := by
    rw [main_loop_list options flights.Data hL, printed_map_print]
  have e2 : saveIgcCalls (main_loop options flights.Data) = [] := by
    rw [main_loop_list options flights.Data hL, saveIgcCalls_map_print]
  have e3 : sched [] = [] := List.Perm.eq_nil (hS [])
  have e4 : main_downloads env token options flights sched h =
      Outcome.ret () (h ++ (flights.Data.map flightLine ++
        [Action.log Level.info (some "Saved [%d] flights") [Arg.int 0]])) := by
    unfold main_downloads
    simp only [e1, e2, e3]
    rw [Prog.bind_eq, print_flights_eq]
    simp [download, log, act]
  obtain ⟨q1, q2, q3⟩ := requested_map_flightLine flights.Data
  refine ⟨e1, e2, e4, ?_, ?_, ?_⟩
  · rw [e4]; simp [Outcome.history, requested_append, q1, requested]
  · rw [e4]; simp [Outcome.history, created_append, q2, created]
  · rw [e4]; simp [Outcome.history, written_append, q3, written]

/-- C4, at two flights, with the filter `-i 7` set as well. -/
theorem C4_list_mode_prints_only_witness :
    main_downloads sampleEnv "tok" ⟨"u", "p", "dir", true, 7⟩
        ⟨[⟨"7", "2022-05-01", "Brauneck"⟩, ⟨"5", "2022-05-02", "Wank"⟩], true, ""⟩ id [] =
      Outcome.ret ()
        [Action.log Level.info (some "Flight ID: [%s] Takeoff: [%s] Date: [%s]")
          [Arg.str "7", Arg.str "Brauneck", Arg.str "2022-05-01"],
         Action.log Level.info (some "Flight ID: [%s] Takeoff: [%s] Date: [%s]")
          [Arg.str "5", Arg.str "Wank", Arg.str "2022-05-02"],
         Action.log Level.info (some "Saved [%d] flights") [Arg.int 0]] :=
  (C4_list_mode_prints_only sampleEnv "tok" ⟨"u", "p", "dir", true, 7⟩
    ⟨[⟨"7", "2022-05-01", "Brauneck"⟩, ⟨"5", "2022-05-02", "Wank"⟩], true, ""⟩ id [] rfl
    (fun l => List.Perm.refl l)).2.2.1

/-- C6, as stated, fails: where no file can be created, `saveIgc` does not end the process but
returns 1, the flight counting as saved, with nothing written; and where reading the body of
the answer breaks off with an error, `httpReq` returns the bytes read so far. -/
theorem C6_errors_terminate_counterexample :
    (∀ h p, readOnlyEnv.Create h p = some OsError.permission) ∧
    (∃ h, saveIgc readOnlyEnv "tok" "7" "dir" "2022-05-01" [] = Outcome.ret 1 h ∧
      written h = []) ∧
    (∀ h r, truncatedEnv.Do h r = Except.ok ⟨[73], some "unexpected EOF", []⟩) ∧
    (∃ h, httpReq truncatedEnv "https://en.dhv-xc.de/flight/7/igc" [34, 34] "GET" "tok" [] =
      Outcome.ret [73] h) :=
  ⟨fun _ _ => rfl, ⟨_, rfl, rfl⟩, fun _ _ => rfl, ⟨_, rfl⟩⟩

/-- C6, amended: the process ends with a fatal log line and `os.Exit(1)` when `client.Do`
reports an error, when `json.Marshal` or `json.Unmarshal` reports an error, and when `makedir`
finds the path missing and `os.Mkdir` reports a missing path; it ends by a nil pointer panic
when the request cannot be built.  The errors of `os.Create`, `Write`, `Close` and of reading the
body are dropped: whatever they are, `saveIgc` returns 1 once `makedir` has returned and the
request was built and answered. -/
theorem C6_errors_terminate (env : Env) :
    (∀ url payload method token h e, env.NewRequestOk method url = true →
      (∀ hd, env.Do hd (httpReq_request url payload method token) = Except.error e) →
      ∃ h', httpReq env url payload method token h = Outcome.exit 1 h') ∧
    (∀ url payload method token h, env.NewRequestOk method url = false →
      ∃ s h', httpReq env url payload method token h = Outcome.panic s h') ∧
    (∀ v h e, env.Marshal v = Except.error e →
      ∃ h', json_dumps env v h = Outcome.exit 1 h') ∧
    (∀ data h e, env.UnmarshalMap data = Except.error e →
      ∃ h', json_load env data h = Outcome.exit 1 h') ∧
    (∀ data h e, env.UnmarshalList data = Except.error e →
      ∃ h', json_loads env data h = Outcome.exit 1 h') ∧
    (∀ data h e, env.UnmarshalFlights data = Except.error e →
      ∃ h', load_flights env data h = Outcome.exit 1 h') ∧
    (∀ path h, IsNotExist (env.Stat h path) = true →
      IsNotExist (env.Mkdir (h ++ [Action.stat path]) path 0o755) = true →
      ∃ h', makedir env path h = Outcome.exit 1 h') ∧
    (∀ token id targetdir date h payload r,
      (∃ h1, makedir env (targetdir ++ "/" ++ date) h = Outcome.ret () h1) →
      env.Marshal (Value.str "") = Except.ok payload →
      env.NewRequestOk "GET" ("https://en.dhv-xc.de/flight/" ++ id ++ "/igc") = true →
      (∀ hd, env.Do hd (httpReq_request ("https://en.dhv-xc.de/flight/" ++ id ++ "/igc")
        payload "GET" token) = Except.ok r) →
      ∃ h', saveIgc env token id targetdir date h = Outcome.ret 1 h') := by
  refine ⟨?_, ?_, ?_, ?_, ?_, ?_, ?_, ?_⟩
  · intro url payload method token h e hN hD
    exact ⟨_, httpReq_error env url payload method token h e hN (hD _)⟩
  · intro url payload method token h hN
    exact ⟨_, _, httpReq_panic env url payload method token h hN⟩
  · intro v h e hM
    exact ⟨_, json_dumps_error env v e h hM⟩
  · intro data h e hU
    exact ⟨_, json_load_error env data e h hU⟩
  · intro data h e hU
    refine ⟨h ++ [Action.log Level.error none [Arg.str "Cant load json response:"],
      Action.log Level.fatal none [Arg.err e]], ?_⟩
    simp [json_loads, hU, log, act, Fatal]
  · intro data h e hU
    refine ⟨h ++ [Action.log Level.error none [Arg.str "Cant load json response:"],
      Action.log Level.fatal none [Arg.err e]], ?_⟩
    simp [load_flights, hU, log, act, Fatal]
  · intro path h h1 h2
    obtain ⟨acts, _, _, _, hc⟩ := makedir_shape env path h
    rcases hc with ⟨_, hn⟩ | ⟨he, _⟩
    · exact absurd ⟨h1, h2⟩ hn
    · exact ⟨_, he⟩
  · intro token id targetdir date h payload r hMk hM hN hD
    have hMk2 : ¬ (IsNotExist (env.Stat h (targetdir ++ "/" ++ date)) = true ∧
        IsNotExist (env.Mkdir (h ++ [Action.stat (targetdir ++ "/" ++ date)])
          (targetdir ++ "/" ++ date) 0o755) = true) := by
      obtain ⟨h1, hret⟩ := hMk
      obtain ⟨acts, _, _, _, hc⟩ := makedir_shape env (targetdir ++ "/" ++ date) h
      rcases hc with ⟨_, hn⟩ | ⟨he, _⟩
      · exact hn
      · rw [he] at hret; cases hret
    obtain ⟨acts, _, hs, _⟩ := saveIgc_ok env token id targetdir date h payload r hMk2 hM hN hD
    exact ⟨_, hs⟩

/-- C6 amended, where no request gets through and where no file can be created. -/
theorem C6_errors_terminate_witness :
    (∃ h, httpReq offlineEnv "https://en.dhv-xc.de/flight/7/igc" [34, 34] "GET" "tok" [] =
      Outcome.exit 1 h) ∧
    (∃ h, saveIgc readOnlyEnv "tok" "7" "dir" "2022-05-01" [] = Outcome.ret 1 h) :=
  ⟨(C6_errors_terminate offlineEnv).1 "https://en.dhv-xc.de/flight/7/igc" [34, 34] "GET" "tok" []
      "dial tcp: no route to host" rfl (fun _ => rfl),
   (C6_errors_terminate readOnlyEnv).2.2.2.2.2.2.2 "tok" "7" "dir" "2022-05-01" [] [34, 34]
      ⟨[73, 71, 67], none, []⟩ ⟨_, rfl⟩ rfl rfl (fun _ => rfl)⟩

/-- C7, as stated, fails: in default mode a record without `idflight` leads to an invocation of
`saveIgc` with the empty identifier. -/
theorem C7_id_present_counterexample :
    saveIgcCalls (main_loop ⟨"u", "p", "dir", false, 0⟩ [⟨"", "2022-05-01", "Brauneck"⟩]) =
      [⟨"", "dir", "2022-05-01"⟩] := by
  decide

/-- C7, amended: the loop passes the identifier of a record on as it is.  An invocation of
`saveIgc` has an empty identifier only without an ID filter and only for a record whose
`idflight` is missing or empty, and in default mode every such record does lead to one; when
all records have an identifier, or an ID filter is given, no invocation has an empty one. -/
theorem C7_id_present (options : Options) (flights : List FlightInfo) :
    (∀ c ∈ saveIgcCalls (main_loop options flights), c.id = "" →
      options.ID = 0 ∧ ∃ f ∈ flights, f.ID = "" ∧ c = ⟨"", options.Dir, f.DATE⟩) ∧
    (options.List = false → options.ID = 0 → ∀ f ∈ flights, f.ID = "" →
      (⟨"", options.Dir, f.DATE⟩ : Call) ∈ saveIgcCalls (main_loop options flights)) ∧
    ((options.ID ≠ 0 ∨ ∀ f ∈ flights, f.ID ≠ "") →
      ∀ c ∈ saveIgcCalls (main_loop options flights), c.id ≠ "") := by
  have h1 : ∀ c ∈ saveIgcCalls (main_loop options flights), c.id = "" →
      options.ID = 0 ∧ ∃ f ∈ flights, f.ID = "" ∧ c = ⟨"", options.Dir, f.DATE⟩ := by
    intro c hc he
    cases hL : options.List with
    | true =>
      rw [main_loop_list options flights hL, saveIgcCalls_map_print] at hc
      simp at hc
    | false =>
      by_cases hID : options.ID = 0
      · rw [main_loop_default options flights hL hID, saveIgcCalls_map_spawn] at hc
        obtain ⟨f, hf, rfl⟩ := List.mem_map.mp hc
        simp only at he
        exact ⟨hID, f, hf, he, by rw [he]⟩
      · exfalso
        rcases mem_saveIgcCalls_filter options flights hL hID c hc with ⟨f, _, hf, rfl⟩ | rfl
        · simp only at he
          rw [he, Atoi_empty] at hf
          exact hID hf.symm
        · exact Sprintf_d_ne_empty _ he
  refine ⟨h1, ?_, ?_⟩
  · intro hL hID f hf he
    rw [main_loop_default options flights hL hID, saveIgcCalls_map_spawn]
    exact List.mem_map.mpr ⟨f, hf, by rw [he]⟩
  · intro hor c hc he
    obtain ⟨h0, f, hf, hfe, _⟩ := h1 c hc he
    rcases hor with h | h
    · exact h h0
    · exact h f hf hfe

/-- C7 amended, at the filter `-i 7` and a list with a record without identifier. -/
theorem C7_id_present_witness :
    (7 : Int) ≠ 0 ∧
    (saveIgcCalls (main_loop ⟨"u", "p", "dir", false, 7⟩
        [⟨"7", "2022-05-01", "Brauneck"⟩, ⟨"", "2022-05-02", "Wank"⟩])).all
      (fun c => decide (c.id ≠ "")) = true :=
  ⟨by decide, List.all_eq_true.mpr (fun c hc => decide_eq_true
    ((C7_id_present ⟨"u", "p", "dir", false, 7⟩
      [⟨"7", "2022-05-01", "Brauneck"⟩, ⟨"", "2022-05-02", "Wank"⟩]).2.2
        (Or.inl (by decide)) c hc))⟩

/-- C8: `success` returns true exactly when the response object has the key `success`, whatever
the value under it.  When the token request, or the login request, is answered with a JSON
object, `getToken`, or the login step of `main`, ends the process with its fatal log line exactly
when that object has no key `success`; with the key the login step returns, and `getToken` returns
or panics on the type assertion. -/
theorem C8_success_key_presence (env : Env) (data : jsonLogin) (token : String) (h : History)
    (payload : Bytes) (r1 r2 : Response) (resp1 resp2 : JsonMap)
    (hM : env.Marshal data.toValue = Except.ok payload)
    (hN1 : env.NewRequestOk Method.GET (Api.url ++ Api.token) = true)
    (hD1 : ∀ hd, env.Do hd (httpReq_request (Api.url ++ Api.token) payload Method.GET "") =
      Except.ok r1)
    (hU1 : env.UnmarshalMap r1.body = Except.ok resp1)
    (hN2 : env.NewRequestOk Method.POST (Api.url ++ Api.login) = true)
    (hD2 : ∀ hd, env.Do hd (httpReq_request (Api.url ++ Api.login) payload Method.POST token) =
      Except.ok r2)
    (hU2 : env.UnmarshalMap r2.body = Except.ok resp2) :
    (∀ resp : JsonMap, success resp = true ↔ "success" ∈ resp.map Prod.fst) ∧
    (∀ (resp : JsonMap) (v : Value), success (("success", v) :: resp) = true) ∧
    ((∃ h', getToken env data h = Outcome.exit 1 (h' ++
        [Action.log Level.fatal (some "Unable to get token: [%s]")
          [Arg.value (resp1.lookup "message")]])) ↔ "success" ∉ resp1.map Prod.fst) ∧
    ((∃ c h', getToken env data h = Outcome.exit c h') ↔ "success" ∉ resp1.map Prod.fst) ∧
    ((∃ h', main_login env data token h = Outcome.exit 1 (h' ++
        [Action.log Level.fatal (some "Authentication failed: [%s]")
          [Arg.value (resp2.lookup "message")]])) ↔ "success" ∉ resp2.map Prod.fst) ∧
    ((∃ h', main_login env data token h = Outcome.ret () h') ↔
      "success" ∈ resp2.map Prod.fst) := by
  have e1 : Api.url ++ Api.token = tokenUrl := by decide
  have e2 : Api.url ++ Api.login = loginUrl := by decide
  have e3 : Method.GET = "GET" := rfl
  have e4 : Method.POST = "POST" := rfl
  rw [e1, e3] at hN1 hD1
  rw [e2, e4] at hN2 hD2
  have g := getToken_eq env data h payload r1 resp1 hM hN1 (hD1 _) hU1
  have l := main_login_eq env data token h payload r2 resp2 hM hN2 (hD2 _) hU2
  have s1 := success_iff resp1
  have s2 := success_iff resp2
  refine ⟨success_iff, ?_, ?_, ?_, ?_, ?_⟩
  · intro resp v
    exact (success_iff _).mpr (by simp)
  · rw [← s1, g]
    cases hs : success resp1 with
    | false => simp
    | true =>
      simp only [Bool.true_eq_false, if_false]
      cases hm : List.lookup "meta" resp1 with
      | none => simp
      | some v => cases v <;> simp
  · rw [← s1, g]
    cases hs : success resp1 with
    | false => simp
    | true =>
      simp only [Bool.true_eq_false, if_false]
      cases hm : List.lookup "meta" resp1 with
      | none => simp
      | some v => cases v <;> simp
  · rw [← s2, l]
    cases hs : success resp2 with
    | false => simp
    | true => simp
  · rw [← s2, l]
    cases hs : success resp2 with
    | false => simp
    | true => simp

/-- C8, in the sample environment, whose answers hold the key `success`. -/
theorem C8_success_key_presence_witness :
    ∃ h', main_login sampleEnv ⟨"u", "p"⟩ "tok" [] = Outcome.ret () h' :=
  ((C8_success_key_presence sampleEnv ⟨"u", "p"⟩ "tok" [] [34, 34] ⟨[73, 71, 67], none, []⟩
    ⟨[73, 71, 67], none, []⟩
    [("success", Value.bool true), ("meta", Value.object [("token", Value.str "tok")])]
    [("success", Value.bool true), ("meta", Value.object [("token", Value.str "tok")])]
    rfl rfl (fun _ => rfl) rfl rfl (fun _ => rfl) rfl).2.2.2.2.2).mpr (by decide)

/-- C9: when the token request is answered with a JSON object that has the key `success` and
whose `meta` is an object, `getToken` returns `meta["token"]` in the default format `%v`: the
string itself when the token is a string, and the non-empty string `<nil>` when `meta` has no
key `token`.  When `meta` is missing or is not an object, the type assertion panics and
`getToken` does not return. -/
theorem C9_getToken_result (env : Env) (data : jsonLogin) (h : History)
    (payload : Bytes) (r : Response) (resp : JsonMap)
    (hM : env.Marshal data.toValue = Except.ok payload)
    (hN : env.NewRequestOk Method.GET (Api.url ++ Api.token) = true)
    (hD : ∀ hd, env.Do hd (httpReq_request (Api.url ++ Api.token) payload Method.GET "") =
      Except.ok r)
    (hU : env.UnmarshalMap r.body = Except.ok resp)
    (hS : "success" ∈ resp.map Prod.fst) :
    (∀ m, resp.lookup "meta" = some (Value.object m) →
      (∃ h', getToken env data h =
        Outcome.ret (Sprintf_v env.FormatFloat (m.lookup "token")) h') ∧
      (∀ t, m.lookup "token" = some (Value.str t) →
        ∃ h', getToken env data h = Outcome.ret t h') ∧
      (m.lookup "token" = none →
        (∃ h', getToken env data h = Outcome.ret "<nil>" h') ∧ "<nil>" ≠ "")) ∧
    ((∀ m, resp.lookup "meta" ≠ some (Value.object m)) →
      (∃ s h', getToken env data h = Outcome.panic s h') ∧
      ¬ ∃ t h', getToken env data h = Outcome.ret t h') := by
  have e1 : Api.url ++ Api.token = tokenUrl := by decide
  have e3 : Method.GET = "GET" := rfl
  rw [e1, e3] at hN hD
  have g := getToken_eq env data h payload r resp hM hN (hD _) hU
  have hs : success resp = true := (success_iff resp).mpr hS
  simp only [hs, Bool.true_eq_false, if_false] at g
  constructor
  · intro m hm
    rw [hm] at g
    simp only at g
    refine ⟨⟨_, g⟩, ?_, ?_⟩
    · intro t ht
      rw [ht] at g
      exact ⟨_, g⟩
    · intro ht
      rw [ht] at g
      exact ⟨⟨_, g⟩, by decide⟩
  · intro hm
    cases hl : List.lookup "meta" resp with
    | none =>
      rw [hl] at g
      simp only at g
      refine ⟨⟨_, _, g⟩, ?_⟩
      rintro ⟨t, h', ht⟩
      rw [g] at ht
      cases ht
    | some v =>
      rw [hl] at g
      cases v with
      | object m => exact absurd hl (hm m)
      | null | bool _ | number _ | str _ | array _ =>
        simp only at g
        refine ⟨⟨_, _, g⟩, ?_⟩
        rintro ⟨t, h', ht⟩
        rw [g] at ht
        cases ht

/-- C9, in the sample environment, whose answer carries the token `tok`. -/
theorem C9_getToken_result_witness :
    ∃ h', getToken sampleEnv ⟨"u", "p"⟩ [] = Outcome.ret "tok" h' :=
  ((C9_getToken_result sampleEnv ⟨"u", "p"⟩ [] [34, 34] ⟨[73, 71, 67], none, []⟩
    [("success", Value.bool true), ("meta", Value.object [("token", Value.str "tok")])]
    rfl rfl (fun _ => rfl) rfl (by decide)).1 [("token", Value.str "tok")] rfl).2.1 "tok" rfl

/-- C10: for every url, payload, method and token the request built by `httpReq` has the
payload as its body when the method is `POST` and no body otherwise, has the header
`Content-Type` with the value `application/json; charset=UTF-8`, and has the header
`X-CSRF-Token`, with the token as value, exactly when the token is not empty; this request is
what `httpReq` sends, once it can be built.  So the token request of `getToken` is a GET without
body and without the header `X-CSRF-Token`, and the login request of `main` is a POST whose body
is the encoding of the JSON object with `uid` and `pwd`. -/
theorem C10_request_shape (env : Env) (data : jsonLogin) (h : History) :
    (∀ url payload method token,
      ((httpReq_request url payload method token).body = some payload ↔ method = "POST") ∧
      (method ≠ "POST" → (httpReq_request url payload method token).body = none) ∧
      (httpReq_request url payload method token).method = method ∧
      (httpReq_request url payload method token).url = url ∧
      Header_Get (httpReq_request url payload method token) "Content-Type" =
        some "application/json; charset=UTF-8" ∧
      (Header_Get (httpReq_request url payload method token) "X-CSRF-Token" = some token ↔
        token ≠ "") ∧
      (token = "" →
        Header_Get (httpReq_request url payload method token) "X-CSRF-Token" = none) ∧
      requested (httpReq env url payload method token h).history = requested h ++
        (if env.NewRequestOk method url = true then [httpReq_request url payload method token]
         else [])) ∧
    (∃ sent, requested (getToken env data h).history = requested h ++ sent ∧
      (∀ payload, env.Marshal data.toValue = Except.ok payload →
        env.NewRequestOk "GET" "https://de.dhv-xc.de/api/xc/login/status" = true →
        sent = [httpReq_request "https://de.dhv-xc.de/api/xc/login/status" payload "GET" ""]) ∧
      ∀ req ∈ sent, req.method = "GET" ∧ req.url = "https://de.dhv-xc.de/api/xc/login/status" ∧
        req.body = none ∧ Header_Get req "X-CSRF-Token" = none) ∧
    (∀ token, ∃ sent, requested (main_login env data token h).history = requested h ++ sent ∧
      (∀ payload, env.Marshal data.toValue = Except.ok payload →
        env.NewRequestOk "POST" "https://de.dhv-xc.de/api/xc/login/login" = true →
        sent = [httpReq_request "https://de.dhv-xc.de/api/xc/login/login" payload "POST"
          token]) ∧
      ∀ req ∈ sent, req.method = "POST" ∧
        req.url = "https://de.dhv-xc.de/api/xc/login/login" ∧
        (Header_Get req "X-CSRF-Token" = some token ↔ token ≠ "") ∧
        ∃ payload, env.Marshal (Value.object [("uid", Value.str data.User),
          ("pwd", Value.str data.Pass)]) = Except.ok payload ∧ req.body = some payload) := by
  have shape : ∀ (url : String) (payload : Bytes) (method token : String),
      ((httpReq_request url payload method token).body = some payload ↔ method = "POST") ∧
      (method ≠ "POST" → (httpReq_request url payload method token).body = none) ∧
      (httpReq_request url payload method token).method = method ∧
      (httpReq_request url payload method token).url = url := by
    intro url payload method token
    unfold httpReq_request
    by_cases hm : method = "POST" <;> by_cases ht : token = "" <;>
      simp [hm, ht, Header_Set, Method]
  have hdr : ∀ (url : String) (payload : Bytes) (method token : String),
      (Header_Get (httpReq_request url payload method token) "X-CSRF-Token" = some token ↔
        token ≠ "") ∧
      (token = "" →
        Header_Get (httpReq_request url payload method token) "X-CSRF-Token" = none) := by
    intro url payload method token
    rw [(Header_Get_request url payload method token).2]
    by_cases ht : token = "" <;> simp [ht]
  have e1 : Api.url ++ Api.token = "https://de.dhv-xc.de/api/xc/login/status" := by decide
  have e2 : Api.url ++ Api.login = "https://de.dhv-xc.de/api/xc/login/login" := by decide
  have e3 : Method.GET = "GET" := rfl
  have e4 : Method.POST = "POST" := rfl
  refine ⟨?_, ?_, ?_⟩
  · intro url payload method token
    obtain ⟨s1, s2, s3, s4⟩ := shape url payload method token
    exact ⟨s1, s2, s3, s4, (Header_Get_request url payload method token).1,
      (hdr url payload method token).1, (hdr url payload method token).2,
      httpReq_sends env url payload method token h⟩
  · have hs := getToken_sends env data h
    rw [e1, e3] at hs
    refine ⟨_, hs, ?_, ?_⟩
    · intro payload hM hN
      rw [hM]; simp only [hN, if_true]
    · intro req hreq
      cases hM : env.Marshal data.toValue with
      | error e => rw [hM] at hreq; simp at hreq
      | ok payload =>
        rw [hM] at hreq
        simp only at hreq
        split_ifs at hreq
        · rw [List.mem_singleton] at hreq
          subst hreq
          obtain ⟨_, s2, s3, s4⟩ := shape "https://de.dhv-xc.de/api/xc/login/status" payload
            "GET" ""
          exact ⟨s3, s4, s2 (by decide), (hdr _ _ _ _).2 rfl⟩
        · simp at hreq
  · intro token
    have hs := main_login_sends env data token h
    rw [e2, e4] at hs
    refine ⟨_, hs, ?_, ?_⟩
    · intro payload hM hN
      rw [hM]; simp only [hN, if_true]
    · intro req hreq
      cases hM : env.Marshal data.toValue with
      | error e => rw [hM] at hreq; simp at hreq
      | ok payload =>
        rw [hM] at hreq
        simp only at hreq
        split_ifs at hreq
        · rw [List.mem_singleton] at hreq
          subst hreq
          obtain ⟨s1, _, s3, s4⟩ := shape "https://de.dhv-xc.de/api/xc/login/login" payload
            "POST" token
          exact ⟨s3, s4, (hdr _ _ _ _).1, payload, hM, s1.mpr rfl⟩
        · simp at hreq

/-- C10, in the sample environment: the requests of `getToken` and of the login step. -/
theorem C10_request_shape_witness :
    requested (getToken sampleEnv ⟨"u", "p"⟩ []).history =
        [⟨"GET", "https://de.dhv-xc.de/api/xc/login/status", none,
          [("Content-Type", "application/json; charset=UTF-8")]⟩] ∧
      requested (main_login sampleEnv ⟨"u", "p"⟩ "tok" []).history =
        [⟨"POST", "https://de.dhv-xc.de/api/xc/login/login", some [34, 34],
          [("Content-Type", "application/json; charset=UTF-8"), ("X-CSRF-Token", "tok")]⟩] := by
  obtain ⟨_, ⟨s1, h1, h2, _⟩, h3⟩ := C10_request_shape sampleEnv ⟨"u", "p"⟩ []
  obtain ⟨s2, k1, k2, _⟩ := h3 "tok"
  rw [h1, h2 [34, 34] rfl rfl, k1, k2 [34, 34] rfl rfl]
  decide

end XCBackup
